import Mathlib

/-
A shallow embedding of the container-pool orchestrator implemented in
src/backend/src/index.ts (class ContainerOrchestrator), together with
theorems about its operations.

Modelling conventions:
* The three SQL tables live in `State`: `containers` is the containers
  table in insertion (rowid) order, `events` the append-only events
  table, and the four pool_config rows are the fields `minSize`,
  `maxSize`, `bufferSize`, `currentSize` (the schema initialisation
  always inserts all four keys, so a key-value map is unnecessary).
* `newUniqueId()` is modelled by the counter `nextId`; `Date.now()` by
  the field `now` (its value is irrelevant to every property proved
  here, so the clock is not advanced).
* The external container backend is a pair of oracles `start`/`kill`
  telling whether the corresponding `stub.fetch` call resolves (`true`)
  or rejects (`false`); a rejection is a thrown exception at the call
  site, modelled with `Except`.
* Every stateful operation returns `Except OrchError A × State`, the
  state component being the storage contents at the moment the
  operation returns or throws (storage writes made before a throw
  persist, exactly as in the code, where every SQL statement commits
  on its own).
* `SqlStorageCursor.one()` throws when the cursor holds no row; the
  `LIMIT 1` queries are therefore modelled with `List.find?`, the empty
  case mapped to `OrchError.noRows` wherever the code does not catch
  the exception itself.
* `ORDER BY created_at ASC` is modelled by a stable insertion sort on
  the `createdAt` field.
* The un-awaited `this.maintainPool()` at the end of allocateContainer
  runs on the same single-threaded actor before the next request is
  processed; it is modelled by running `maintainPool` synchronously and
  discarding its error (an un-awaited rejection is swallowed).
-/

/- One row of the `containers` table. -/
structure ContainerRow where
  id : Nat
  projectId : Option String
  createdAt : Nat
  lastActivity : Nat
  deriving Repr, DecidableEq

/- The `type` column of the `events` table. -/
inductive EventType where
  | containerCreated
  | containerAllocated
  | containerDeallocated
  | containerShutdown
  | poolSizeChanged
  deriving Repr, DecidableEq

/- The JSON payloads the orchestrator stringifies into `details`. -/
inductive Details where
  | emptyObj
  | allocated (projectId : String)
  | shutdownReason (reason : String)
  | resetMsg
  | configChanged (minSize maxSize bufferSize : Option Int)
  deriving Repr, DecidableEq

/- One row of the `events` table (the autoincrement id is the list position). -/
structure Event where
  type : EventType
  containerId : String
  timestamp : Nat
  details : Details
  deriving Repr, DecidableEq

/- The body of a PUT /config request: the three optional fields. -/
structure ConfigPatch where
  minSize : Option Int
  maxSize : Option Int
  bufferSize : Option Int
  deriving Repr, DecidableEq

/- Errors thrown by the orchestrator: the pool-size-limit Error thrown by
createContainer, a rejected backend stub.fetch, and the exception thrown
by SqlStorageCursor.one() on an empty cursor. -/
inductive OrchError where
  | poolFull
  | backendError
  | noRows
  deriving Repr, DecidableEq

/- The opaque container backend: whether start / kill calls resolve. -/
structure Backend where
  start : Nat → Bool
  kill : Nat → Bool

/- The durable storage owned by the orchestrator. -/
structure State where
  containers : List ContainerRow
  events : List Event
  minSize : Int
  maxSize : Int
  bufferSize : Int
  currentSize : Int
  nextId : Nat
  now : Nat
  deriving Repr, DecidableEq

/- `project_id IS NULL`. -/
def isIdle (c : ContainerRow) : Bool := c.projectId.isNone

/- `INSERT INTO events ...` (logEvent in the source). -/
def logEvent (e : Event) (s : State) : State :=
  { s with events := s.events ++ [e] }

/- The container_created event appended by createContainer on state s. -/
def createdEvent (s : State) : Event :=
  { type := .containerCreated, containerId := toString s.nextId,
    timestamp := s.now, details := .emptyObj }

/- The container_shutdown event appended for each excess idle container. -/
def shutdownEvent (c : ContainerRow) (ts : Nat) : Event :=
  { type := .containerShutdown, containerId := toString c.id,
    timestamp := ts, details := .shutdownReason "excess_idle_container" }

/- The container_allocated event appended by allocateContainer. -/
def allocatedEvent (cid : Nat) (k : String) (ts : Nat) : Event :=
  { type := .containerAllocated, containerId := toString cid,
    timestamp := ts, details := .allocated k }

/- The pool_size_changed event appended by resetContainers. -/
def resetEvent (ts : Nat) : Event :=
  { type := .poolSizeChanged, containerId := "system",
    timestamp := ts, details := .resetMsg }

/- The pool_size_changed event appended by updatePoolConfig. -/
def configEvent (cfg : ConfigPatch) (ts : Nat) : Event :=
  { type := .poolSizeChanged, containerId := "system",
    timestamp := ts, details := .configChanged cfg.minSize cfg.maxSize cfg.bufferSize }

/- The three UPDATE statements of updatePoolConfig: write each provided
field (buffer_size via its INSERT OR REPLACE, then the queued min_size
and max_size updates). -/
def applyPatch (cfg : ConfigPatch) (s : State) : State :=
  let s1 : State := match cfg.bufferSize with
    | some v => { s with bufferSize := v }
    | none => s
  let s2 : State := match cfg.minSize with
    | some v => { s1 with minSize := v }
    | none => s1
  match cfg.maxSize with
  | some v => { s2 with maxSize := v }
  | none => s2

/- createContainer: read current_size and max_size, throw if at capacity,
start the backend container, insert the row, increment current_size,
append a container_created event. -/
def createContainer (b : Backend) (s : State) : Except OrchError ContainerRow × State :=
  if s.currentSize ≥ s.maxSize then (.error .poolFull, s)
  else
    let cid := s.nextId
    let s1 : State := { s with nextId := s.nextId + 1 }
    if b.start cid then
      let row : ContainerRow :=
        { id := cid, projectId := none, createdAt := s.now, lastActivity := s.now }
      let s2 : State :=
        { s1 with containers := s1.containers ++ [row], currentSize := s1.currentSize + 1 }
      (.ok row, logEvent (createdEvent s) s2)
    else (.error .backendError, s1)

/- Stable insertion step for `ORDER BY created_at ASC`. -/
def insertByCreated (c : ContainerRow) : List ContainerRow → List ContainerRow
  | [] => [c]
  | d :: ds => if c.createdAt < d.createdAt then c :: d :: ds else d :: insertByCreated c ds

/- Stable sort modelling `ORDER BY created_at ASC`. -/
def sortByCreated : List ContainerRow → List ContainerRow
  | [] => []
  | c :: cs => insertByCreated c (sortByCreated cs)

/- The loop body of shutdownExcessContainers: for each selected container
kill it via the backend (an exception aborts the whole loop), delete its
row, append a container_shutdown event; after the loop decrement
current_size by the precomputed excess count in one update. -/
def killLoop (b : Backend) (excess : Int) : List ContainerRow → State → Except OrchError Unit × State
  | [], s => (.ok (), { s with currentSize := s.currentSize - excess })
  | c :: rest, s =>
    if b.kill c.id then
      let s1 : State :=
        { s with containers := s.containers.filter (fun r => decide (r.id ≠ c.id)) }
      killLoop b excess rest (logEvent (shutdownEvent c s.now) s1)
    else (.error .backendError, s)

/- shutdownExcessContainers in the source. -/
def shutdownExcessContainers (b : Backend) (s : State) : Except OrchError Unit × State :=
  let idles := sortByCreated (s.containers.filter isIdle)
  if s.bufferSize < (idles.length : Int) then
    let excess : Int := (idles.length : Int) - s.bufferSize
    killLoop b excess (idles.take excess.toNat) s
  else (.ok (), s)

/- The creation loop shared by maintainPool and initializePool: each
createContainer call is wrapped in try/catch, so a failure is logged and
the loop continues with the state left by the failed call. -/
def createLoop (b : Backend) : Nat → State → State
  | 0, s => s
  | k + 1, s => createLoop b k (createContainer b s).2

/- `SELECT COUNT(*) FROM containers WHERE project_id IS NULL`. -/
def idleCount (s : State) : Nat := (s.containers.filter isIdle).length

/- maintainPool in the source. -/
def maintainPool (b : Backend) (s : State) : Except OrchError Unit × State :=
  if (idleCount s : Int) < s.bufferSize then
    (.ok (), createLoop b (s.bufferSize - (idleCount s : Int)).toNat s)
  else if s.bufferSize < (idleCount s : Int) then
    shutdownExcessContainers b s
  else (.ok (), s)

/- initializePool in the source (creation only, never shuts down). -/
def initializePool (b : Backend) (s : State) : State :=
  if (idleCount s : Int) < s.bufferSize then
    createLoop b (s.bufferSize - (idleCount s : Int)).toNat s
  else s

/- The tail of allocateContainer once a container id has been chosen:
UPDATE the row with the project id and last_activity, re-select the row
(.one() would throw if it vanished), append a container_allocated event
and fire off maintainPool (un-awaited: its error is swallowed, its state
effects land before the next request). -/
def allocFinish (b : Backend) (k : String) (cid : Nat) (s : State) :
    Except OrchError (Option ContainerRow) × State :=
  let s1 : State :=
    { s with containers :=
        s.containers.map (fun c =>
          if c.id = cid then { c with projectId := some k, lastActivity := s.now } else c) }
  match s1.containers.find? (fun c => decide (c.id = cid)) with
  | none => (.error .noRows, s1)
  | some newC =>
      let s2 := logEvent (allocatedEvent cid k s.now) s1
      (.ok (some newC), (maintainPool b s2).2)

/- allocateContainer in the source: return the existing owner's container
unchanged if one exists; otherwise take the first idle container or
create one (returning null if creation fails), then bind it. -/
def allocateContainer (b : Backend) (k : String) (s : State) :
    Except OrchError (Option ContainerRow) × State :=
  match s.containers.find? (fun c => decide (c.projectId = some k)) with
  | some c => (.ok (some c), s)
  | none =>
    match s.containers.find? (fun c => isIdle c) with
    | some c => allocFinish b k c.id s
    | none =>
      match createContainer b s with
      | (.ok c, s1) => allocFinish b k c.id s1
      | (.error _, s1) => (.ok none, s1)

/- The kill loop at the start of resetContainers: kill every container via
the backend; an exception aborts resetContainers before any row changes. -/
def killAll (b : Backend) : List ContainerRow → State → Except OrchError Unit × State
  | [], s => (.ok (), s)
  | c :: rest, s => if b.kill c.id then killAll b rest s else (.error .backendError, s)

/- resetContainers in the source: kill all, delete all rows, zero
current_size, log a pool_size_changed event, re-run initializePool. -/
def resetContainers (b : Backend) (s : State) : Except OrchError Unit × State :=
  match killAll b s.containers s with
  | (.error e, s1) => (.error e, s1)
  | (.ok _, s1) =>
      let s2 : State := { s1 with containers := [], currentSize := 0 }
      (.ok (), initializePool b (logEvent (resetEvent s.now) s2))

/- The status snapshot returned by getStatus. -/
structure StatusView where
  containers : List ContainerRow
  minSize : Int
  maxSize : Int
  currentSize : Int
  bufferSize : Int
  deriving Repr, DecidableEq

/- getStatus in the source (the `?? default` fallbacks never fire because
the schema initialisation inserts all four keys). -/
def getStatus (s : State) : StatusView :=
  { containers := s.containers, minSize := s.minSize, maxSize := s.maxSize,
    currentSize := s.currentSize, bufferSize := s.bufferSize }

/- getContainerIdByProjectId in the source: the SELECT ... LIMIT 1 cursor
is consumed with .one(), which throws when no row matches; the
`container?.id ?? null` fallback is unreachable. -/
def getContainerIdByProjectId (k : String) (s : State) : Except OrchError (Option Nat) :=
  match s.containers.find? (fun c => decide (c.projectId = some k)) with
  | some c => .ok (some c.id)
  | none => .error .noRows

/- updatePoolConfig in the source: apply the provided fields (buffer_size
immediately, min_size and max_size from the queued update list), with no
validation of any kind, then log a pool_size_changed event and run
maintainPool (awaited: its exception propagates). -/
def updatePoolConfig (b : Backend) (cfg : ConfigPatch) (s : State) :
    Except OrchError Unit × State :=
  maintainPool b (logEvent (configEvent cfg s.now) (applyPatch cfg s))

/- A public mutating operation of the orchestrator. -/
inductive Op where
  | alloc (k : String)
  | reset
  | config (cfg : ConfigPatch)
  | maintain
  deriving Repr

/- Run one public operation, keeping the state it leaves behind whether it
succeeds or throws (the process survives a failed request). -/
def applyOp (b : Backend) (op : Op) (s : State) : State :=
  match op with
  | .alloc k => (allocateContainer b k s).2
  | .reset => (resetContainers b s).2
  | .config cfg => (updatePoolConfig b cfg s).2
  | .maintain => (maintainPool b s).2

/- Run a sequence of public operations. -/
def runOps (b : Backend) : List Op → State → State
  | [], s => s
  | op :: rest, s => runOps b rest (applyOp b op s)

/- Well-formedness every reachable storage state enjoys: ids are unique
(PRIMARY KEY) and below the id counter (newUniqueId freshness). -/
def WF (s : State) : Prop :=
  (s.containers.map (·.id)).Nodup ∧ ∀ c ∈ s.containers, c.id < s.nextId

/- The cached counter agrees with the table. -/
def Sync (s : State) : Prop := s.currentSize = (s.containers.length : Int)

/- The buffer size that is in effect when the maintenance pass triggered
by the given operation runs. -/
def opBufferAfter (op : Op) (s : State) : Int :=
  match op with
  | .config cfg => cfg.bufferSize.getD s.bufferSize
  | _ => s.bufferSize

/- Overwrite min_size only (used to state that nothing reads it). -/
def setMin (m : Int) (s : State) : State := { s with minSize := m }

/- The operation does not write min_size. -/
def minFree : Op → Prop
  | .config cfg => cfg.minSize = none
  | _ => True

/- The row createContainer inserts when it succeeds on state `s`. -/
def newRow (s : State) : ContainerRow :=
  { id := s.nextId, projectId := none, createdAt := s.now, lastActivity := s.now }

/- The state a successful createContainer call leaves behind. -/
def createdState (s : State) : State :=
  { s with containers := s.containers ++ [newRow s],
           currentSize := s.currentSize + 1,
           nextId := s.nextId + 1,
           events := s.events ++ [createdEvent s] }

/- Concrete backends and states used in witnesses and counterexamples. -/

def bAll : Backend := ⟨fun _ => true, fun _ => true⟩

def bNoStart : Backend := ⟨fun _ => false, fun _ => true⟩

def bFailFirst : Backend := ⟨fun n => decide (0 < n), fun _ => true⟩

def bLateStart : Backend := ⟨fun n => decide (2 ≤ n), fun _ => true⟩

def bKillFails1 : Backend := ⟨fun _ => true, fun n => decide (n = 0)⟩

def s0 : State :=
  { containers := [], events := [], minSize := 2, maxSize := 10,
    bufferSize := 2, currentSize := 0, nextId := 0, now := 0 }

def sFull : State := { s0 with currentSize := 10 }

def row7 : ContainerRow := { id := 7, projectId := some "p", createdAt := 3, lastActivity := 4 }

def sOwned : State :=
  { containers := [row7], events := [], minSize := 2, maxSize := 10,
    bufferSize := 2, currentSize := 1, nextId := 8, now := 9 }

def cIdle0 : ContainerRow := { id := 0, projectId := none, createdAt := 5, lastActivity := 5 }

def cIdle1 : ContainerRow := { id := 1, projectId := none, createdAt := 6, lastActivity := 6 }

def sTwoIdle : State :=
  { containers := [cIdle0, cIdle1], events := [], minSize := 2, maxSize := 10,
    bufferSize := 0, currentSize := 2, nextId := 2, now := 100 }

def cfgBad : ConfigPatch := { minSize := some 5, maxSize := some 3, bufferSize := none }

def emptyPatch : ConfigPatch := { minSize := none, maxSize := none, bufferSize := none }

/-- Claim C2: createContainer fails with the pool-full error and changes
nothing when current_size has reached max_size; below capacity (and with
a successful backend start) it inserts exactly one idle row and
increments current_size by one; consequently, starting from a state with
current_size at most max_size, no createContainer call pushes
current_size past max_size. -/
theorem createContainer_capacity (b : Backend) (s : State) :
    (s.currentSize ≥ s.maxSize → createContainer b s = (.error .poolFull, s)) ∧
    (s.currentSize < s.maxSize → b.start s.nextId = true →
      (createContainer b s).2.containers = s.containers ++
        [{ id := s.nextId, projectId := none, createdAt := s.now, lastActivity := s.now }] ∧
      (createContainer b s).2.currentSize = s.currentSize + 1) ∧
    (s.currentSize ≤ s.maxSize → (createContainer b s).2.currentSize ≤ s.maxSize) := by
  refine ⟨fun h => ?_, fun h hb => ?_, fun h => ?_⟩
  · simp [createContainer, h]
  · simp [createContainer, not_le.mpr h, hb, logEvent]
  · by_cases h1 : s.currentSize ≥ s.maxSize
    · simpa [createContainer, h1] using h
    · by_cases h2 : b.start s.nextId
      · simp [createContainer, h1, h2, logEvent]; omega
      · simpa [createContainer, h1, h2] using h

/-- Witness for createContainer_capacity: at capacity (current_size = 10 =
max_size) the call fails with poolFull and leaves the state untouched; on
the empty default state it appends one idle row and sets current_size to 1. -/
theorem createContainer_capacity_witness :
    createContainer bAll sFull = (.error .poolFull, sFull) ∧
    ((createContainer bAll s0).2.containers = s0.containers ++
      [{ id := s0.nextId, projectId := none, createdAt := s0.now, lastActivity := s0.now }] ∧
     (createContainer bAll s0).2.currentSize = s0.currentSize + 1) :=
  ⟨(createContainer_capacity bAll sFull).1 (by decide),
   (createContainer_capacity bAll s0).2.1 (by decide) rfl⟩

/-- Claim C4: if the pool is below capacity and the backend start call
rejects, createContainer throws without inserting a row, without touching
current_size and without appending any event (no orphan state). -/
theorem createContainer_backend_atomic (b : Backend) (s : State)
    (h1 : s.currentSize < s.maxSize) (h2 : b.start s.nextId = false) :
    (createContainer b s).1 = .error .backendError ∧
    (createContainer b s).2.containers = s.containers ∧
    (createContainer b s).2.currentSize = s.currentSize ∧
    (createContainer b s).2.events = s.events := by
  simp [createContainer, not_le.mpr h1, h2]

/-- Witness for createContainer_backend_atomic at the default empty state
with a backend whose start call always rejects. -/
theorem createContainer_backend_atomic_witness :
    (createContainer bNoStart s0).1 = .error .backendError ∧
    (createContainer bNoStart s0).2.containers = s0.containers ∧
    (createContainer bNoStart s0).2.currentSize = s0.currentSize ∧
    (createContainer bNoStart s0).2.events = s0.events :=
  createContainer_backend_atomic bNoStart s0 (by decide) rfl

/-- Claim C9 (code bug): getContainerIdByProjectId consumes its LIMIT 1
cursor with .one(), which throws when no container is bound to the owner,
so the lookup throws instead of returning the null that the
`container?.id ?? null` fallback (and the proxy's `if (!containerId)`
check) expect; when an owned container exists its id is returned. -/
theorem lookup_throws_on_missing_owner :
    getContainerIdByProjectId "p" s0 = .error .noRows ∧
    getContainerIdByProjectId "p" sOwned = .ok (some 7) := ⟨rfl, rfl⟩

/-- Claim C3 counterexample: a config update violating minSize ≤ maxSize
(minSize 5, maxSize 3) is not rejected: updatePoolConfig succeeds and
persists both fields, because the source performs no validation. -/
theorem configure_accepts_invalid_cex :
    (updatePoolConfig bAll cfgBad s0).1 = .ok () ∧
    (updatePoolConfig bAll cfgBad s0).2.minSize = 5 ∧
    (updatePoolConfig bAll cfgBad s0).2.maxSize = 3 := ⟨rfl, rfl, rfl⟩

/-- Claim C5 counterexample: on a state with two idle containers, buffer
size 0 and a backend whose kill call rejects for container 1, the
maintenance pass triggered by an empty config update deletes one row and
then throws before the single current_size decrement, leaving
current_size = 2 against one remaining row: the counter and the table
are out of sync after a public operation. -/
theorem shutdown_desync_cex :
    (updatePoolConfig bKillFails1 emptyPatch sTwoIdle).1 = .error .backendError ∧
    (updatePoolConfig bKillFails1 emptyPatch sTwoIdle).2.containers.length = 1 ∧
    (updatePoolConfig bKillFails1 emptyPatch sTwoIdle).2.currentSize = 2 ∧
    ¬ Sync (updatePoolConfig bKillFails1 emptyPatch sTwoIdle).2 :=
  ⟨rfl, rfl, rfl, by unfold Sync; decide⟩

/-- Claim C6 counterexample: resetContainers re-runs initializePool before
returning, so on the default configuration (buffer size 2) the state
immediately after reset has two containers and current_size = 2, not an
empty table and zero. -/
theorem reset_not_empty_cex :
    (resetContainers bAll s0).1 = .ok () ∧
    (getStatus (resetContainers bAll s0).2).currentSize = 2 ∧
    (getStatus (resetContainers bAll s0).2).containers.length = 2 := ⟨rfl, rfl, rfl⟩

/-- Claim C7 counterexample: with idleCount 0 and bufferSize 2, a backend
that rejects the first start call and accepts the second still yields one
created container: the failed first creation does not abort the rest of
the pass (the catch logs and the loop continues). -/
theorem maintain_continues_after_failure_cex :
    (maintainPool bFailFirst s0).1 = .ok () ∧
    (maintainPool bFailFirst s0).2.containers.length = 1 ∧
    (maintainPool bFailFirst s0).2.currentSize = 1 := ⟨rfl, rfl, rfl⟩

/-- Claim C8 counterexample: with a backend that rejects the first two
start calls and accepts later ones, the first maintenance pass creates
nothing while the second pass creates two containers, so the second
immediate run is not a no-op on the containers table. -/
theorem maintain_second_run_changes_state_cex :
    (maintainPool bLateStart s0).2.containers.length = 0 ∧
    (maintainPool bLateStart (maintainPool bLateStart s0).2).2.containers.length = 2 := ⟨rfl, rfl⟩

/- Helper lemmas about the sort modelling ORDER BY created_at. -/

theorem insertByCreated_perm (c : ContainerRow) (l : List ContainerRow) :
    List.Perm (insertByCreated c l) (c :: l) := by
  induction l with
  | nil => exact List.Perm.refl _
  | cons d ds ih =>
    simp only [insertByCreated]
    split
    · exact List.Perm.refl _
    · exact (ih.cons d).trans (List.Perm.swap c d ds)

theorem sortByCreated_perm (l : List ContainerRow) :
    List.Perm (sortByCreated l) l := by
  induction l with
  | nil => exact List.Perm.refl _
  | cons c cs ih =>
    exact (insertByCreated_perm c (sortByCreated cs)).trans (ih.cons c)

/- createContainer takes exactly one of three paths: pool full (no
change), backend start rejection (only the id was consumed), success. -/
theorem createContainer_spec (b : Backend) (s : State) :
    (s.currentSize ≥ s.maxSize ∧ createContainer b s = (.error .poolFull, s)) ∨
    (s.currentSize < s.maxSize ∧ b.start s.nextId = false ∧
      createContainer b s = (.error .backendError, { s with nextId := s.nextId + 1 })) ∨
    (s.currentSize < s.maxSize ∧ b.start s.nextId = true ∧
      createContainer b s = (.ok (newRow s), createdState s)) := by
  by_cases h1 : s.currentSize ≥ s.maxSize
  · exact .inl ⟨h1, by simp [createContainer, h1]⟩
  · cases h2 : b.start s.nextId
    · exact .inr (.inl ⟨lt_of_not_ge h1, rfl, by simp [createContainer, h1, h2]⟩)
    · refine .inr (.inr ⟨lt_of_not_ge h1, rfl, ?_⟩)
      simp [createContainer, h1, h2, logEvent, createdState, newRow]

/- The whole kill loop of resetContainers succeeds and is read-only when
every backend kill call resolves. -/
theorem killAll_ok (b : Backend) (hkill : ∀ n, b.kill n = true) :
    ∀ (l : List ContainerRow) (s : State), killAll b l s = (.ok (), s) := by
  intro l
  induction l with
  | nil => intro s; rfl
  | cons c rest ih => intro s; simp [killAll, hkill c.id, ih]

/- Characterisation of the creation loop when every backend start call
resolves: exactly min(k, maxSize − currentSize) new idle rows are
appended and counted. -/
theorem createLoop_all (b : Backend) (hstart : ∀ n, b.start n = true) :
    ∀ (k : Nat) (s : State), ∃ rows : List ContainerRow,
      (createLoop b k s).containers = s.containers ++ rows ∧
      rows.length = (min (k : Int) (s.maxSize - s.currentSize)).toNat ∧
      (createLoop b k s).currentSize = s.currentSize + rows.length ∧
      (createLoop b k s).maxSize = s.maxSize ∧
      (createLoop b k s).bufferSize = s.bufferSize ∧
      (createLoop b k s).minSize = s.minSize ∧
      (createLoop b k s).now = s.now ∧
      ∀ r ∈ rows, isIdle r = true ∧ s.nextId ≤ r.id := by
  intro k
  induction k with
  | zero =>
    intro s
    refine ⟨[], by simp [createLoop], ?_, by simp [createLoop], by simp [createLoop],
      by simp [createLoop], by simp [createLoop], by simp [createLoop], by simp⟩
    simp only [List.length_nil]
    omega
  | succ k ih =>
    intro s
    rcases createContainer_spec b s with ⟨h1, heq⟩ | ⟨h1, h2, heq⟩ | ⟨h1, h2, heq⟩
    · rcases ih s with ⟨rows, hc, hl, hcur, hmax, hbuf, hmin, hnow, hr⟩
      have hloop : createLoop b (k + 1) s = createLoop b k s := by
        simp [createLoop, heq]
      refine ⟨rows, by rw [hloop]; exact hc, by omega, by rw [hloop]; exact hcur,
        by rw [hloop]; exact hmax, by rw [hloop]; exact hbuf, by rw [hloop]; exact hmin,
        by rw [hloop]; exact hnow, hr⟩
    · exact absurd (hstart s.nextId) (by simp [h2])
    · rcases ih (createdState s) with ⟨rows2, hc, hl, hcur, hmax, hbuf, hmin, hnow, hr⟩
      have hloop : createLoop b (k + 1) s = createLoop b k (createdState s) := by
        simp [createLoop, heq]
      have hfields : (createdState s).maxSize = s.maxSize ∧
          (createdState s).currentSize = s.currentSize + 1 ∧
          (createdState s).bufferSize = s.bufferSize ∧
          (createdState s).minSize = s.minSize ∧
          (createdState s).now = s.now ∧
          (createdState s).nextId = s.nextId + 1 ∧
          (createdState s).containers = s.containers ++ [newRow s] := by
        simp [createdState]
      obtain ⟨f1, f2, f3, f4, f5, f6, f7⟩ := hfields
      refine ⟨newRow s :: rows2, ?_, ?_, ?_, ?_, ?_, ?_, ?_, ?_⟩
      · rw [hloop, hc, f7]
        simp
      · simp only [List.length_cons]
        rw [f1, f2] at hl
        omega
      · rw [hloop, hcur, f2]
        simp only [List.length_cons]
        omega
      · rw [hloop, hmax, f1]
      · rw [hloop, hbuf, f3]
      · rw [hloop, hmin, f4]
      · rw [hloop, hnow, f5]
      · intro r hr'
        rcases List.mem_cons.mp hr' with h | h
        · subst h
          exact ⟨rfl, le_refl _⟩
        · rcases hr r h with ⟨hi, hn⟩
          rw [f6] at hn
          exact ⟨hi, by omega⟩

/- Characterisation of the creation loop for an arbitrary backend when
the capacity cap cannot bite: all k creations are attempted (each one
consumes an id), and exactly the successful ones append rows. -/
theorem createLoop_count (b : Backend) :
    ∀ (k : Nat) (s : State), s.currentSize + (k : Int) ≤ s.maxSize →
      ∃ rows : List ContainerRow,
        (createLoop b k s).containers = s.containers ++ rows ∧
        rows.length = (List.range k).countP (fun i => b.start (s.nextId + i)) ∧
        (createLoop b k s).currentSize = s.currentSize + rows.length ∧
        ∀ r ∈ rows, isIdle r = true := by
  intro k
  induction k with
  | zero =>
    intro s _
    exact ⟨[], by simp [createLoop], by simp, by simp [createLoop], by simp⟩
  | succ k ih =>
    intro s hcap
    rcases createContainer_spec b s with ⟨h1, heq⟩ | ⟨h1, h2, heq⟩ | ⟨h1, h2, heq⟩
    · omega
    · have hloop : createLoop b (k + 1) s = createLoop b k { s with nextId := s.nextId + 1 } := by
        simp [createLoop, heq]
      rcases ih { s with nextId := s.nextId + 1 } (by simp; omega) with ⟨rows, hc, hl, hcur, hr⟩
      refine ⟨rows, by rw [hloop]; simpa using hc, ?_, by rw [hloop]; simpa using hcur, hr⟩
      rw [hl]
      simp only [List.range_succ_eq_map, List.countP_cons, List.countP_map]
      have hp : ((fun i => b.start (s.nextId + i)) ∘ Nat.succ) =
          (fun i => b.start (s.nextId + 1 + i)) := by
        funext i
        simp only [Function.comp]
        congr 1
        omega
      rw [hp]
      simp [h2]
    · have hloop : createLoop b (k + 1) s = createLoop b k (createdState s) := by
        simp [createLoop, heq]
      rcases ih (createdState s) (by simp [createdState]; omega) with ⟨rows2, hc, hl, hcur, hr⟩
      refine ⟨newRow s :: rows2, ?_, ?_, ?_, ?_⟩
      · rw [hloop, hc]
        simp [createdState]
      · simp only [List.length_cons]
        rw [hl]
        simp only [List.range_succ_eq_map, List.countP_cons, List.countP_map, createdState]
        have hp : ((fun i => b.start (s.nextId + i)) ∘ Nat.succ) =
            (fun i => b.start (s.nextId + 1 + i)) := by
          funext i
          simp only [Function.comp]
          congr 1
          omega
        rw [hp]
        simp [h2]
      · rw [hloop, hcur]
        simp only [createdState, List.length_cons]
        omega
      · intro r hr'
        rcases List.mem_cons.mp hr' with h | h
        · subst h; rfl
        · exact hr r h

/-- Claim C7 (amended): during a buffer-maintenance pass with
idleCount < bufferSize (and enough capacity for the whole pass), a
creation failure does not abort the remaining creations: every one of
the bufferSize − idleCount creations is attempted, exactly the
successful ones append rows, and rows created before a failure are kept
(the original table is a prefix of the result). -/
theorem maintain_attempts_all (b : Backend) (s : State)
    (hidle : (idleCount s : Int) < s.bufferSize)
    (hcap : s.currentSize + (s.bufferSize - (idleCount s : Int)) ≤ s.maxSize) :
    ∃ rows : List ContainerRow,
      (maintainPool b s).1 = .ok () ∧
      (maintainPool b s).2.containers = s.containers ++ rows ∧
      rows.length = (List.range (s.bufferSize - (idleCount s : Int)).toNat).countP
        (fun i => b.start (s.nextId + i)) := by
  have hm : maintainPool b s =
      (.ok (), createLoop b (s.bufferSize - (idleCount s : Int)).toNat s) := by
    simp [maintainPool, hidle]
  rcases createLoop_count b (s.bufferSize - (idleCount s : Int)).toNat s (by omega)
    with ⟨rows, hc, hl, _, _⟩
  exact ⟨rows, by rw [hm], by rw [hm]; exact hc, hl⟩

/-- Witness for maintain_attempts_all: empty pool, buffer 2, a backend
rejecting the first start call and accepting the second. -/
theorem maintain_attempts_all_witness :
    ∃ rows : List ContainerRow,
      (maintainPool bFailFirst s0).1 = .ok () ∧
      (maintainPool bFailFirst s0).2.containers = s0.containers ++ rows ∧
      rows.length = (List.range (s0.bufferSize - (idleCount s0 : Int)).toNat).countP
        (fun i => bFailFirst.start (s0.nextId + i)) :=
  maintain_attempts_all bFailFirst s0 (by decide) (by decide)

/-- Claim C6 (amended): resetContainers wipes every pre-existing
container, zeroes current_size, and then re-runs pool initialization, so
immediately after reset() the table holds exactly the freshly created
idle containers — min(bufferSize, maxSize) of them when every backend
call succeeds — and current_size equals that count; it is empty only
when bufferSize is 0. -/
theorem reset_reinitializes (b : Backend) (s : State)
    (hstart : ∀ n, b.start n = true) (hkill : ∀ n, b.kill n = true)
    (hbuf : 0 ≤ s.bufferSize) (hmax : 0 ≤ s.maxSize) :
    ∃ s1, resetContainers b s = (.ok (), s1) ∧
      ((getStatus s1).containers.length : Int) = min s.bufferSize s.maxSize ∧
      (getStatus s1).currentSize = min s.bufferSize s.maxSize ∧
      ∀ c ∈ (getStatus s1).containers, c.projectId = none ∧ s.nextId ≤ c.id := by
  have hreset : resetContainers b s =
      (.ok (), initializePool b
        { s with containers := [], currentSize := 0,
                 events := s.events ++ [resetEvent s.now] }) := by
    simp [resetContainers, killAll_ok b hkill, logEvent]
  set s3 : State :=
    { s with containers := [], currentSize := 0,
             events := s.events ++ [resetEvent s.now] } with hs3
  have hidle3 : idleCount s3 = 0 := by simp [idleCount, hs3]
  by_cases hpos : (0 : Int) < s.bufferSize
  · have hinit : initializePool b s3 = createLoop b s.bufferSize.toNat s3 := by
      simp [initializePool, hidle3, hs3, hpos]
    rcases createLoop_all b hstart s.bufferSize.toNat s3 with
      ⟨rows, hc, hl, hcur, _, _, _, _, hr⟩
    refine ⟨createLoop b s.bufferSize.toNat s3, by rw [hreset, hinit], ?_, ?_, ?_⟩
    · rw [getStatus, hc]
      simp only [hs3, List.nil_append]
      rw [hl]
      simp only [hs3]
      omega
    · rw [getStatus, hcur, hc]
      simp only [hs3, List.nil_append]
      rw [hl]
      simp only [hs3]
      omega
    · intro c hcmem
      rw [getStatus] at hcmem
      simp only [hc, hs3, List.nil_append] at hcmem
      rcases hr c hcmem with ⟨hi, hn⟩
      refine ⟨Option.isNone_iff_eq_none.mp hi, ?_⟩
      simpa [hs3] using hn
  · have hb0 : s.bufferSize = 0 := by omega
    have hinit : initializePool b s3 = s3 := by
      simp [initializePool, hidle3, hs3, hb0]
    refine ⟨s3, by rw [hreset, hinit], ?_, ?_, ?_⟩
    · simp [getStatus, hs3, hb0]
      omega
    · simp [getStatus, hs3, hb0]
      omega
    · intro c hcmem
      simp [getStatus, hs3] at hcmem

/- A convenient unfolding of shutdownExcessContainers. -/
theorem shutdownExcess_eq (b : Backend) (s : State) :
    shutdownExcessContainers b s =
      if s.bufferSize < ((sortByCreated (s.containers.filter isIdle)).length : Int) then
        killLoop b (((sortByCreated (s.containers.filter isIdle)).length : Int) - s.bufferSize)
          ((sortByCreated (s.containers.filter isIdle)).take
            ((((sortByCreated (s.containers.filter isIdle)).length : Int) - s.bufferSize)).toNat) s
      else (.ok (), s) := rfl

/- The creation loop never touches min_size, max_size, buffer_size or the
clock, and only appends to the event log (any backend). -/
theorem createLoop_fields (b : Backend) :
    ∀ (k : Nat) (s : State),
      (createLoop b k s).minSize = s.minSize ∧
      (createLoop b k s).maxSize = s.maxSize ∧
      (createLoop b k s).bufferSize = s.bufferSize ∧
      (createLoop b k s).now = s.now ∧
      ∃ t, (createLoop b k s).events = s.events ++ t := by
  intro k
  induction k with
  | zero =>
    intro s
    exact ⟨rfl, rfl, rfl, rfl, [], by simp [createLoop]⟩
  | succ k ih =>
    intro s
    rcases ih (createContainer b s).2 with ⟨i1, i2, i3, i4, t, i5⟩
    have hloop : createLoop b (k + 1) s = createLoop b k (createContainer b s).2 := rfl
    rcases createContainer_spec b s with ⟨_, heq⟩ | ⟨_, _, heq⟩ | ⟨_, _, heq⟩ <;>
      rw [heq] at i1 i2 i3 i4 i5 <;>
      refine ⟨by rw [hloop, heq]; exact i1, by rw [hloop, heq]; exact i2,
        by rw [hloop, heq]; exact i3, by rw [hloop, heq]; exact i4, ?_⟩
    · exact ⟨t, by rw [hloop, heq]; exact i5⟩
    · exact ⟨t, by rw [hloop, heq]; exact i5⟩
    · refine ⟨createdEvent s :: t, ?_⟩
      rw [hloop, heq, i5]
      simp [createdState]

/- The shutdown loop never touches min_size, max_size, buffer_size or the
clock, and only appends to the event log (any backend). -/
theorem killLoop_fields (b : Backend) :
    ∀ (todo : List ContainerRow) (excess : Int) (s : State),
      (killLoop b excess todo s).2.minSize = s.minSize ∧
      (killLoop b excess todo s).2.maxSize = s.maxSize ∧
      (killLoop b excess todo s).2.bufferSize = s.bufferSize ∧
      (killLoop b excess todo s).2.now = s.now ∧
      ∃ t, (killLoop b excess todo s).2.events = s.events ++ t := by
  intro todo
  induction todo with
  | nil =>
    intro excess s
    exact ⟨rfl, rfl, rfl, rfl, [], by simp [killLoop]⟩
  | cons c rest ih =>
    intro excess s
    by_cases hk : b.kill c.id
    · have hstep : killLoop b excess (c :: rest) s =
          killLoop b excess rest
            (logEvent (shutdownEvent c s.now)
              { s with containers := s.containers.filter (fun r => decide (r.id ≠ c.id)) }) := by
        simp [killLoop, hk]
      rcases ih excess
          (logEvent (shutdownEvent c s.now)
            { s with containers := s.containers.filter (fun r => decide (r.id ≠ c.id)) })
        with ⟨i1, i2, i3, i4, t, i5⟩
      rw [hstep]
      refine ⟨by simpa [logEvent] using i1, by simpa [logEvent] using i2,
        by simpa [logEvent] using i3, by simpa [logEvent] using i4, ?_⟩
      refine ⟨shutdownEvent c s.now :: t, ?_⟩
      rw [i5]
      simp [logEvent]
    · have hstep : killLoop b excess (c :: rest) s = (.error .backendError, s) := by
        simp [killLoop, hk]
      rw [hstep]
      exact ⟨rfl, rfl, rfl, rfl, [], by simp⟩

/- The maintenance pass never touches min_size, max_size, buffer_size or
the clock, and only appends to the event log (any backend). -/
theorem maintainPool_fields (b : Backend) (s : State) :
    (maintainPool b s).2.minSize = s.minSize ∧
    (maintainPool b s).2.maxSize = s.maxSize ∧
    (maintainPool b s).2.bufferSize = s.bufferSize ∧
    (maintainPool b s).2.now = s.now ∧
    ∃ t, (maintainPool b s).2.events = s.events ++ t := by
  by_cases h1 : (idleCount s : Int) < s.bufferSize
  · have hm : (maintainPool b s).2 = createLoop b (s.bufferSize - (idleCount s : Int)).toNat s := by
      simp [maintainPool, h1]
    rw [hm]
    exact createLoop_fields b _ s
  · by_cases h2 : s.bufferSize < (idleCount s : Int)
    · have hm : maintainPool b s = shutdownExcessContainers b s := by
        simp [maintainPool, h1, h2]
      rw [hm, shutdownExcess_eq]
      split
      · exact killLoop_fields b _ _ s
      · exact ⟨rfl, rfl, rfl, rfl, [], by simp⟩
    · have hm : maintainPool b s = (.ok (), s) := by
        simp [maintainPool, h1, h2]
      rw [hm]
      exact ⟨rfl, rfl, rfl, rfl, [], by simp⟩

/- The patch application writes exactly the provided fields. -/
theorem applyPatch_spec (cfg : ConfigPatch) (s : State) :
    (applyPatch cfg s).minSize = cfg.minSize.getD s.minSize ∧
    (applyPatch cfg s).maxSize = cfg.maxSize.getD s.maxSize ∧
    (applyPatch cfg s).bufferSize = cfg.bufferSize.getD s.bufferSize ∧
    (applyPatch cfg s).containers = s.containers ∧
    (applyPatch cfg s).events = s.events ∧
    (applyPatch cfg s).currentSize = s.currentSize ∧
    (applyPatch cfg s).nextId = s.nextId ∧
    (applyPatch cfg s).now = s.now := by
  obtain ⟨cmin, cmax, cbuf⟩ := cfg
  rcases cmin with _ | vmin <;> rcases cmax with _ | vmax <;> rcases cbuf with _ | vbuf <;>
    simp [applyPatch]

/-- Claim C3 (amended): updatePoolConfig performs no validation at all:
every provided field — including negative values and combinations with
minSize greater than maxSize — is persisted unconditionally, and a
pool_size_changed event recording the patch is appended; there is no
InvalidConfig failure on out-of-range values (the only exception the
HTTP handler can observe is one escaping the maintenance pass, after
the fields were already written). -/
theorem configure_persists_unvalidated (b : Backend) (cfg : ConfigPatch) (s : State) :
    (updatePoolConfig b cfg s).2.minSize = cfg.minSize.getD s.minSize ∧
    (updatePoolConfig b cfg s).2.maxSize = cfg.maxSize.getD s.maxSize ∧
    (updatePoolConfig b cfg s).2.bufferSize = cfg.bufferSize.getD s.bufferSize ∧
    configEvent cfg s.now ∈ (updatePoolConfig b cfg s).2.events := by
  obtain ⟨p1, p2, p3, _, p5, _, _, _⟩ := applyPatch_spec cfg s
  obtain ⟨m1, m2, m3, _, t, m5⟩ :=
    maintainPool_fields b (logEvent (configEvent cfg s.now) (applyPatch cfg s))
  have hu : (updatePoolConfig b cfg s).2 =
      (maintainPool b (logEvent (configEvent cfg s.now) (applyPatch cfg s))).2 := rfl
  rw [hu, m1, m2, m3, m5]
  refine ⟨by simpa [logEvent] using p1, by simpa [logEvent] using p2,
    by simpa [logEvent] using p3, ?_⟩
  simp [logEvent]

/- Deleting a row by id from a table with unique ids removes exactly that
row: decompose the table around the row. -/
theorem filter_ne_of_nodup (l : List ContainerRow) (c : ContainerRow)
    (hnd : (l.map (·.id)).Nodup) (hc : c ∈ l) :
    ∃ l1 l2, l = l1 ++ c :: l2 ∧
      l.filter (fun r => decide (r.id ≠ c.id)) = l1 ++ l2 ∧
      (∀ r ∈ l1 ++ l2, r.id ≠ c.id) := by
  obtain ⟨l1, l2, rfl⟩ := List.append_of_mem hc
  have hnd' : (l1.map (·.id) ++ c.id :: l2.map (·.id)).Nodup := by simpa using hnd
  rcases List.nodup_append.mp hnd' with ⟨_, hnd2, hdisj⟩
  have hcnotin : c.id ∉ l2.map (·.id) := (List.nodup_cons.mp hnd2).1
  have hne : ∀ r ∈ l1 ++ l2, r.id ≠ c.id := by
    intro r hr
    rcases List.mem_append.mp hr with h | h
    · intro heq
      exact hdisj (List.mem_map_of_mem _ h) (by simp [heq])
    · intro heq
      exact hcnotin (heq ▸ List.mem_map_of_mem _ h)
  refine ⟨l1, l2, rfl, ?_, hne⟩
  rw [List.filter_append]
  have h1 : l1.filter (fun r => decide (r.id ≠ c.id)) = l1 := by
    apply List.filter_eq_self.mpr
    intro a ha
    simpa using hne a (List.mem_append.mpr (.inl ha))
  have hc0 : decide (c.id ≠ c.id) = false := by simp
  have h2 : (c :: l2).filter (fun r => decide (r.id ≠ c.id)) = l2 := by
    rw [List.filter_cons]
    simp only [hc0, Bool.false_eq_true, if_false]
    apply List.filter_eq_self.mpr
    intro a ha
    simpa using hne a (List.mem_append.mpr (.inr ha))
  rw [h1, h2]

/- Appending idle rows adds exactly their number to the idle count. -/
theorem idle_filter_append (l rows : List ContainerRow) (h : ∀ r ∈ rows, isIdle r = true) :
    ((l ++ rows).filter isIdle).length = (l.filter isIdle).length + rows.length := by
  rw [List.filter_append, List.filter_eq_self.mpr h]
  simp

/- Full characterisation of the shutdown loop when every kill call
resolves and the targeted rows are distinct idle rows of the table:
each target is deleted, the counter is decremented by the precomputed
excess at the end, and owned rows are untouched. -/
theorem killLoop_ok (b : Backend) (hkill : ∀ n, b.kill n = true) :
    ∀ (todo : List ContainerRow) (excess : Int) (s : State),
      (todo.map (·.id)).Nodup →
      (∀ c ∈ todo, c ∈ s.containers ∧ isIdle c = true) →
      (s.containers.map (·.id)).Nodup →
      ∃ s1, killLoop b excess todo s = (.ok (), s1) ∧
        s1.containers.length + todo.length = s.containers.length ∧
        (s1.containers.filter isIdle).length + todo.length = (s.containers.filter isIdle).length ∧
        s1.containers.filter (fun c => !isIdle c) = s.containers.filter (fun c => !isIdle c) ∧
        (s1.containers.map (·.id)).Nodup ∧
        (∀ c ∈ s1.containers, c ∈ s.containers) ∧
        s1.currentSize = s.currentSize - excess ∧
        s1.nextId = s.nextId := by
  intro todo
  induction todo with
  | nil =>
    intro excess s _ _ hnd
    exact ⟨{ s with currentSize := s.currentSize - excess }, rfl, by simp [killLoop],
      by simp [killLoop], rfl, hnd, fun c hc => hc, rfl, rfl⟩
  | cons c rest ih =>
    intro excess s hndt hmem hnd
    have hkc : b.kill c.id = true := hkill c.id
    obtain ⟨hcmem, hcidle⟩ := hmem c (by simp)
    obtain ⟨l1, l2, hdecomp, hfilter, hne⟩ := filter_ne_of_nodup s.containers c hnd hcmem
    set s' : State := logEvent (shutdownEvent c s.now)
      { s with containers := s.containers.filter (fun r => decide (r.id ≠ c.id)) } with hs'
    have hstep : killLoop b excess (c :: rest) s = killLoop b excess rest s' := by
      simp [killLoop, hkc, hs']
    have hs'c : s'.containers = l1 ++ l2 := by
      rw [hs']
      simpa [logEvent] using hfilter
    have hmapcons : (c :: rest).map (·.id) = c.id :: rest.map (·.id) := rfl
    rw [hmapcons] at hndt
    obtain ⟨hcid_notin, hndt'⟩ := List.nodup_cons.mp hndt
    have hmem' : ∀ d ∈ rest, d ∈ s'.containers ∧ isIdle d = true := by
      intro d hd
      obtain ⟨hdmem, hdidle⟩ := hmem d (by simp [hd])
      refine ⟨?_, hdidle⟩
      rw [hs'c]
      have hdne : d.id ≠ c.id := by
        intro h
        exact hcid_notin (h ▸ List.mem_map_of_mem _ hd)
      rw [hdecomp] at hdmem
      rcases List.mem_append.mp hdmem with h | h
      · exact List.mem_append.mpr (.inl h)
      · rcases List.mem_cons.mp h with h | h
        · exact (hdne (by rw [h])).elim
        · exact List.mem_append.mpr (.inr h)
    have hnd2 : (s.containers.map (·.id)).Nodup := hnd
    have hnd' : (s'.containers.map (·.id)).Nodup := by
      rw [hs'c]
      rw [hdecomp] at hnd2
      exact hnd2.sublist (((List.sublist_cons_self c l2).append_left l1).map _)
    obtain ⟨s1, hk1, e1, e2, e3, e4, e5, e6, e7⟩ := ih excess s' hndt' hmem' hnd'
    have hl1 : s'.containers.length = l1.length + l2.length := by
      rw [hs'c]
      simp
    have hL1 : s.containers.length = l1.length + l2.length + 1 := by
      rw [hdecomp]
      simp only [List.length_append, List.length_cons]
      omega
    have hi1 : (s'.containers.filter isIdle).length =
        (l1.filter isIdle).length + (l2.filter isIdle).length := by
      rw [hs'c]
      simp
    have hi2 : (s.containers.filter isIdle).length =
        (l1.filter isIdle).length + (l2.filter isIdle).length + 1 := by
      rw [hdecomp, List.filter_append, List.filter_cons]
      simp only [hcidle, if_true]
      simp only [List.length_append, List.length_cons]
      omega
    refine ⟨s1, by rw [hstep, hk1], ?_, ?_, ?_, e4, ?_, ?_, ?_⟩
    · simp only [List.length_cons]
      omega
    · simp only [List.length_cons]
      omega
    · rw [e3, hs'c, hdecomp, List.filter_append, List.filter_append, List.filter_cons]
      have hcond2 : (!isIdle c) = false := by rw [hcidle]; rfl
      simp only [hcond2, Bool.false_eq_true, if_false]
    · intro d hd
      have hds' := e5 d hd
      rw [hs'c] at hds'
      rw [hdecomp]
      rcases List.mem_append.mp hds' with h | h
      · exact List.mem_append.mpr (.inl h)
      · exact List.mem_append.mpr (.inr (List.mem_cons.mpr (.inr h)))
    · rw [e6, hs']
      simp [logEvent]
    · rw [e7, hs']
      simp [logEvent]

/- Full characterisation of shutdownExcessContainers when every kill call
resolves, ids are unique and buffer_size is non-negative: the idle count
lands exactly on buffer_size, owned rows are untouched, and the counter
drops by the same excess as the table. -/
theorem shutdown_ok (b : Backend) (hkill : ∀ n, b.kill n = true) (s : State)
    (hnd : (s.containers.map (·.id)).Nodup)
    (hbuf : 0 ≤ s.bufferSize)
    (hgt : s.bufferSize < (idleCount s : Int)) :
    ∃ s1, shutdownExcessContainers b s = (.ok (), s1) ∧
      ((s1.containers.filter isIdle).length : Int) = s.bufferSize ∧
      s1.containers.filter (fun c => !isIdle c) = s.containers.filter (fun c => !isIdle c) ∧
      (s1.containers.map (·.id)).Nodup ∧
      (s1.containers.length : Int) = (s.containers.length : Int) - ((idleCount s : Int) - s.bufferSize) ∧
      s1.currentSize = s.currentSize - ((idleCount s : Int) - s.bufferSize) ∧
      s1.bufferSize = s.bufferSize ∧ s1.maxSize = s.maxSize ∧
      s1.minSize = s.minSize ∧ s1.nextId = s.nextId ∧ s1.now = s.now := by
  have hperm : List.Perm (sortByCreated (s.containers.filter isIdle)) (s.containers.filter isIdle) :=
    sortByCreated_perm _
  have hlen : (sortByCreated (s.containers.filter isIdle)).length = idleCount s := by
    rw [hperm.length_eq]
    rfl
  have hguard : s.bufferSize < ((sortByCreated (s.containers.filter isIdle)).length : Int) := by
    rw [hlen]
    exact hgt
  have htake_len : ((sortByCreated (s.containers.filter isIdle)).take
      (((sortByCreated (s.containers.filter isIdle)).length : Int) - s.bufferSize).toNat).length =
      (((sortByCreated (s.containers.filter isIdle)).length : Int) - s.bufferSize).toNat := by
    apply List.length_take_of_le
    omega
  have hnd_idles : ((sortByCreated (s.containers.filter isIdle)).map (·.id)).Nodup := by
    have h1 : List.Sublist ((s.containers.filter isIdle).map (·.id)) (s.containers.map (·.id)) :=
      (List.filter_sublist s.containers).map _
    exact ((hperm.map _).nodup_iff).mpr (hnd.sublist h1)
  have hnd_take : (((sortByCreated (s.containers.filter isIdle)).take
      (((sortByCreated (s.containers.filter isIdle)).length : Int) - s.bufferSize).toNat).map
        (·.id)).Nodup :=
    hnd_idles.sublist ((List.take_sublist _ _).map _)
  have hmem_take : ∀ c ∈ (sortByCreated (s.containers.filter isIdle)).take
      (((sortByCreated (s.containers.filter isIdle)).length : Int) - s.bufferSize).toNat,
      c ∈ s.containers ∧ isIdle c = true := by
    intro c hc
    exact List.mem_filter.mp (hperm.mem_iff.mp (List.mem_of_mem_take hc))
  obtain ⟨s1, hk, e1, e2, e3, e4, e5, e6, e7⟩ :=
    killLoop_ok b hkill _ _ s hnd_take hmem_take hnd
  obtain ⟨f1, f2, f3, f4, _⟩ := killLoop_fields b
    ((sortByCreated (s.containers.filter isIdle)).take
      (((sortByCreated (s.containers.filter isIdle)).length : Int) - s.bufferSize).toNat)
    (((sortByCreated (s.containers.filter isIdle)).length : Int) - s.bufferSize) s
  rw [hk] at f1 f2 f3 f4
  have hshut : shutdownExcessContainers b s =
      killLoop b (((sortByCreated (s.containers.filter isIdle)).length : Int) - s.bufferSize)
        ((sortByCreated (s.containers.filter isIdle)).take
          (((sortByCreated (s.containers.filter isIdle)).length : Int) - s.bufferSize).toNat) s := by
    rw [shutdownExcess_eq, if_pos hguard]
  refine ⟨s1, by rw [hshut, hk], ?_, e3, e4, ?_, ?_, f3, f2, f1, e7, f4⟩
  · have hidle0 : (s.containers.filter isIdle).length = idleCount s := rfl
    omega
  · omega
  · omega

/- After one maintenance pass with an all-success backend, either the
idle count equals buffer_size, or it is still below buffer_size and the
pool is at (or beyond) capacity. -/
theorem maintain_all_success (b : Backend) (hstart : ∀ n, b.start n = true)
    (hkill : ∀ n, b.kill n = true) (s : State)
    (hnd : (s.containers.map (·.id)).Nodup) (hbuf : 0 ≤ s.bufferSize) :
    (maintainPool b s).2.bufferSize = s.bufferSize ∧
    (((idleCount (maintainPool b s).2 : Int) = s.bufferSize) ∨
      ((idleCount (maintainPool b s).2 : Int) < s.bufferSize ∧
        (maintainPool b s).2.maxSize ≤ (maintainPool b s).2.currentSize)) := by
  by_cases h1 : (idleCount s : Int) < s.bufferSize
  · have hm : (maintainPool b s).2 = createLoop b (s.bufferSize - (idleCount s : Int)).toNat s := by
      simp [maintainPool, h1]
    obtain ⟨rows, hc, hl, hcur, hmax, hbufe, _, _, hr⟩ :=
      createLoop_all b hstart (s.bufferSize - (idleCount s : Int)).toNat s
    rw [hm]
    refine ⟨hbufe, ?_⟩
    have hidle : idleCount (createLoop b (s.bufferSize - (idleCount s : Int)).toNat s) =
        idleCount s + rows.length := by
      show ((createLoop b (s.bufferSize - (idleCount s : Int)).toNat s).containers.filter
        isIdle).length = idleCount s + rows.length
      rw [hc]
      exact idle_filter_append _ _ (fun r hr' => (hr r hr').1)
    by_cases hfull : rows.length = (s.bufferSize - (idleCount s : Int)).toNat
    · left
      rw [hidle]
      omega
    · right
      refine ⟨by rw [hidle]; omega, ?_⟩
      rw [hmax, hcur]
      omega
  · by_cases h2 : s.bufferSize < (idleCount s : Int)
    · have hm : maintainPool b s = shutdownExcessContainers b s := by
        simp [maintainPool, h1, h2]
      obtain ⟨s1, hs1, g1, _, _, _, _, gbuf, _, _, _, _⟩ := shutdown_ok b hkill s hnd hbuf h2
      rw [hm, hs1]
      exact ⟨gbuf, .inl g1⟩
    · have hm : maintainPool b s = (.ok (), s) := by
        simp [maintainPool, h1, h2]
      rw [hm]
      refine ⟨rfl, .inl ?_⟩
      show ((idleCount s : Int)) = s.bufferSize
      omega

/-- Claim C8 (amended): the maintenance pass is idempotent on the pool
state provided every backend call involved succeeds and buffer_size is
non-negative: running maintainPool twice in immediate succession leaves
the containers table and current_size after the second run identical to
their values after the first; when backend calls fail, the second run is
a retry that can change state. -/
theorem maintain_idempotent (b : Backend) (s : State)
    (hstart : ∀ n, b.start n = true) (hkill : ∀ n, b.kill n = true)
    (hnd : (s.containers.map (·.id)).Nodup) (hbuf : 0 ≤ s.bufferSize) :
    (maintainPool b (maintainPool b s).2).2.containers = (maintainPool b s).2.containers ∧
    (maintainPool b (maintainPool b s).2).2.currentSize = (maintainPool b s).2.currentSize := by
  obtain ⟨hbuf1, hdisj⟩ := maintain_all_success b hstart hkill s hnd hbuf
  set t : State := (maintainPool b s).2 with ht
  rcases hdisj with heq | ⟨hlt, hcap⟩
  · have h1 : ¬ ((idleCount t : Int) < t.bufferSize) := by
      rw [hbuf1]
      omega
    have h2 : ¬ (t.bufferSize < (idleCount t : Int)) := by
      rw [hbuf1]
      omega
    have hm : maintainPool b t = (.ok (), t) := by
      simp [maintainPool, h1, h2]
    rw [hm]
    exact ⟨rfl, rfl⟩
  · have h1 : (idleCount t : Int) < t.bufferSize := by
      rw [hbuf1]
      omega
    have hm : (maintainPool b t).2 =
        createLoop b (t.bufferSize - (idleCount t : Int)).toNat t := by
      simp [maintainPool, h1]
    obtain ⟨rows, hc, hl, hcur, _, _, _, _, _⟩ :=
      createLoop_all b hstart (t.bufferSize - (idleCount t : Int)).toNat t
    have hzero : rows.length = 0 := by omega
    have hrows : rows = [] := List.length_eq_zero.mp hzero
    refine ⟨?_, ?_⟩
    · rw [hm, hc, hrows]
      simp
    · rw [hm, hcur, hzero]
      simp
  
/-- Witness for maintain_idempotent: two idle containers, buffer 0, an
all-success backend — the first pass shuts both down, the second is a
no-op. -/
theorem maintain_idempotent_witness :
    (maintainPool bAll (maintainPool bAll sTwoIdle).2).2.containers =
      (maintainPool bAll sTwoIdle).2.containers ∧
    (maintainPool bAll (maintainPool bAll sTwoIdle).2).2.currentSize =
      (maintainPool bAll sTwoIdle).2.currentSize :=
  maintain_idempotent bAll sTwoIdle (fun _ => rfl) (fun _ => rfl) (by decide) (by decide)

/-- Witness for reset_reinitializes at the default empty state: after
reset, min(2, 10) = 2 fresh idle containers and current_size 2. -/
theorem reset_reinitializes_witness :
    ∃ s1, resetContainers bAll s0 = (.ok (), s1) ∧
      ((getStatus s1).containers.length : Int) = min s0.bufferSize s0.maxSize ∧
      (getStatus s1).currentSize = min s0.bufferSize s0.maxSize ∧
      ∀ c ∈ (getStatus s1).containers, c.projectId = none ∧ s0.nextId ≤ c.id :=
  reset_reinitializes bAll s0 (fun _ => rfl) (fun _ => rfl) (by decide) (by decide)

/- createContainer keeps the counter and the table in sync. -/
theorem sync_createContainer (b : Backend) (s : State) (hs : Sync s) :
    Sync (createContainer b s).2 := by
  rcases createContainer_spec b s with ⟨_, heq⟩ | ⟨_, _, heq⟩ | ⟨_, _, heq⟩ <;> rw [heq]
  · exact hs
  · exact hs
  · unfold Sync at *
    simp only [createdState, List.length_append, List.length_cons, List.length_nil]
    omega

/- The creation loop keeps the counter and the table in sync. -/
theorem sync_createLoop (b : Backend) :
    ∀ (k : Nat) (s : State), Sync s → Sync (createLoop b k s) := by
  intro k
  induction k with
  | zero => intro s hs; exact hs
  | succ k ih => intro s hs; exact ih _ (sync_createContainer b s hs)

/- createContainer preserves well-formedness: the fresh id cannot clash. -/
theorem WF_createContainer (b : Backend) (s : State) (h : WF s) :
    WF (createContainer b s).2 := by
  obtain ⟨hnd, hfresh⟩ := h
  rcases createContainer_spec b s with ⟨_, heq⟩ | ⟨_, _, heq⟩ | ⟨_, _, heq⟩ <;> rw [heq]
  · exact ⟨hnd, hfresh⟩
  · exact ⟨hnd, fun c hc => Nat.lt_succ_of_lt (hfresh c hc)⟩
  · constructor
    · show ((s.containers ++ [newRow s]).map (·.id)).Nodup
      rw [List.map_append]
      rw [List.nodup_append]
      refine ⟨hnd, by simp, ?_⟩
      intro a ha hb
      simp only [newRow, List.map_cons, List.map_nil, List.mem_cons, List.not_mem_nil,
        or_false] at hb
      obtain ⟨c, hc, rfl⟩ := List.mem_map.mp ha
      have hlt := hfresh c hc
      rw [hb] at hlt
      exact lt_irrefl _ hlt
  
    · intro c hc
      show c.id < s.nextId + 1
      rcases List.mem_append.mp hc with h | h
      · exact Nat.lt_succ_of_lt (hfresh c h)
      · simp only [List.mem_cons, List.not_mem_nil, or_false] at h
        subst h
        exact Nat.lt_succ_self _
  
/- The creation loop preserves well-formedness. -/
theorem WF_createLoop (b : Backend) :
    ∀ (k : Nat) (s : State), WF s → WF (createLoop b k s) := by
  intro k
  induction k with
  | zero => intro s h; exact h
  | succ k ih => intro s h; exact ih _ (WF_createContainer b s h)

/- One maintenance pass keeps the counter and the table in sync whenever
every backend kill call resolves, ids are unique and the buffer size is
non-negative (start calls may fail freely). -/
theorem sync_maintain (b : Backend) (s : State)
    (hkill : ∀ n, b.kill n = true)
    (hnd : (s.containers.map (·.id)).Nodup)
    (hbuf : 0 ≤ s.bufferSize) (hs : Sync s) :
    Sync (maintainPool b s).2 := by
  by_cases h1 : (idleCount s : Int) < s.bufferSize
  · have hm : (maintainPool b s).2 = createLoop b (s.bufferSize - (idleCount s : Int)).toNat s := by
      simp [maintainPool, h1]
    rw [hm]
    exact sync_createLoop b _ s hs
  · by_cases h2 : s.bufferSize < (idleCount s : Int)
    · have hm : maintainPool b s = shutdownExcessContainers b s := by
        simp [maintainPool, h1, h2]
      obtain ⟨s1, hs1, _, _, _, g5, g6, _, _, _, _, _⟩ := shutdown_ok b hkill s hnd hbuf h2
      rw [hm, hs1]
      show s1.currentSize = (s1.containers.length : Int)
      unfold Sync at hs
      omega
    · have hm : maintainPool b s = (.ok (), s) := by
        simp [maintainPool, h1, h2]
      rw [hm]
      exact hs

/- The id column is untouched by the owner-update of allocateContainer. -/
theorem upd_ids (l : List ContainerRow) (cid : Nat) (k : String) (nw : Nat) :
    ((l.map (fun c =>
      if c.id = cid then { c with projectId := some k, lastActivity := nw } else c)).map
        (·.id)) = l.map (·.id) := by
  rw [List.map_map]
  congr 1
  funext c
  by_cases h : c.id = cid <;> simp [Function.comp, h]

/- The commit phase of allocateContainer keeps counter and table in sync
under the same conditions as the maintenance pass it triggers. -/
theorem allocFinish_sync (b : Backend) (k : String) (cid : Nat) (s : State)
    (hkill : ∀ n, b.kill n = true)
    (hnd : (s.containers.map (·.id)).Nodup)
    (hbuf : 0 ≤ s.bufferSize) (hs : Sync s) :
    Sync (allocFinish b k cid s).2 := by
  simp only [allocFinish]
  split
  · unfold Sync at *
    simpa using hs
  · apply sync_maintain b _ hkill
    · show (((s.containers.map (fun c =>
        if c.id = cid then { c with projectId := some k, lastActivity := s.now } else c))).map
          (·.id)).Nodup
      rw [upd_ids]
      exact hnd
    · exact hbuf
    · unfold Sync at *
      simpa [logEvent] using hs

/-- Claim C5 (amended): after any public operation the stored current_size
equals the number of rows in the containers table, provided every backend
kill call involved resolves and the buffer size in effect for the
triggered maintenance pass is non-negative; a kill rejection partway
through excess-idle shutdown (or a negative configured buffer size)
breaks the invariant, because the single decrement after the deletion
loop is skipped or wrong. -/
theorem counter_in_sync (b : Backend) (op : Op) (s : State)
    (hkill : ∀ n, b.kill n = true) (hWF : WF s)
    (hbuf : 0 ≤ opBufferAfter op s) (hs : Sync s) :
    Sync (applyOp b op s) := by
  obtain ⟨hnd, hfresh⟩ := hWF
  cases op with
  | maintain =>
    exact sync_maintain b s hkill hnd (by simpa [opBufferAfter] using hbuf) hs
  | config cfg =>
    show Sync (updatePoolConfig b cfg s).2
    have hu : (updatePoolConfig b cfg s).2 =
        (maintainPool b (logEvent (configEvent cfg s.now) (applyPatch cfg s))).2 := rfl
    rw [hu]
    obtain ⟨_, _, p3, p4, p5, p6, _, _⟩ := applyPatch_spec cfg s
    apply sync_maintain b _ hkill
    · show (((applyPatch cfg s).containers).map (·.id)).Nodup
      rw [p4]
      exact hnd
    · show 0 ≤ (applyPatch cfg s).bufferSize
      rw [p3]
      simpa [opBufferAfter] using hbuf
    · unfold Sync at *
      show (applyPatch cfg s).currentSize = ((applyPatch cfg s).containers.length : Int)
      rw [p4, p6]
      exact hs
  | reset =>
    show Sync (resetContainers b s).2
    have hr : resetContainers b s =
        (.ok (), initializePool b
          (logEvent (resetEvent s.now) { s with containers := [], currentSize := 0 })) := by
      simp [resetContainers, killAll_ok b hkill]
    rw [hr]
    show Sync (initializePool b _)
    unfold initializePool
    split
    · apply sync_createLoop
      unfold Sync
      simp [logEvent]
    · unfold Sync
      simp [logEvent]
  | alloc k =>
    show Sync (allocateContainer b k s).2
    have hbufX : 0 ≤ s.bufferSize := by simpa [opBufferAfter] using hbuf
    cases hof : s.containers.find? (fun c => decide (c.projectId = some k)) with
    | some c =>
      have h : allocateContainer b k s = (.ok (some c), s) := by
        simp [allocateContainer, hof]
      rw [h]
      exact hs
    | none =>
      cases hif : s.containers.find? (fun c => isIdle c) with
      | some c =>
        have h : allocateContainer b k s = allocFinish b k c.id s := by
          simp [allocateContainer, hof, hif]
        rw [h]
        exact allocFinish_sync b k c.id s hkill hnd hbufX hs
      | none =>
        rcases createContainer_spec b s with ⟨_, heq⟩ | ⟨_, _, heq⟩ | ⟨_, _, heq⟩
        · have h : allocateContainer b k s = (.ok none, s) := by
            simp [allocateContainer, hof, hif, heq]
          rw [h]
          exact hs
        · have h : allocateContainer b k s = (.ok none, { s with nextId := s.nextId + 1 }) := by
            simp [allocateContainer, hof, hif, heq]
          rw [h]
          exact hs
        · have h : allocateContainer b k s = allocFinish b k (newRow s).id (createdState s) := by
            simp [allocateContainer, hof, hif, heq]
          rw [h]
          have hwf1 := WF_createContainer b s ⟨hnd, hfresh⟩
          rw [heq] at hwf1
          have hsy1 := sync_createContainer b s hs
          rw [heq] at hsy1
          apply allocFinish_sync b k (newRow s).id (createdState s) hkill
        
          · exact hwf1.1
          · show 0 ≤ (createdState s).bufferSize
            simpa [createdState] using hbufX
          · exact hsy1

/-- Witness for counter_in_sync: a maintenance pass on a well-formed
in-sync state with two idle containers, buffer 0 and all-success backend
shuts both down and leaves counter and table in sync. -/
theorem counter_in_sync_witness : Sync (applyOp bAll .maintain sTwoIdle) :=
  counter_in_sync bAll .maintain sTwoIdle (fun _ => rfl) ⟨by decide, by decide⟩
    (by decide) (by unfold Sync; decide)

/- A find? over the whole table equals the find? over a filtered table
when the predicate implies the filter. -/
theorem find?_filter_of_imp (p q : ContainerRow → Bool) (l : List ContainerRow)
    (h : ∀ x, p x = true → q x = true) :
    l.find? p = (l.filter q).find? p := by
  induction l with
  | nil => rfl
  | cons a l ih =>
    by_cases hq : q a = true
    · rw [List.filter_cons_of_pos hq]
      by_cases hp : p a = true
      · rw [List.find?_cons_of_pos l hp, List.find?_cons_of_pos _ hp]
      · rw [List.find?_cons_of_neg l hp, List.find?_cons_of_neg _ hp]
        exact ih
    · have hp : ¬ p a = true := fun hp => hq (h a hp)
      rw [List.filter_cons_of_neg hq, List.find?_cons_of_neg l hp]
      exact ih

/- With unique ids, looking a member row up by its id finds exactly it. -/
theorem find_id_of_nodup :
    ∀ (l : List ContainerRow) (c : ContainerRow),
      ((l.map (·.id)).Nodup) → c ∈ l →
      l.find? (fun r => decide (r.id = c.id)) = some c := by
  intro l
  induction l with
  | nil =>
    intro c _ hc
    exact absurd hc (List.not_mem_nil c)
  | cons h t ih =>
    intro c hnd hc
    have hmapcons : (h :: t).map (·.id) = h.id :: t.map (·.id) := rfl
    rw [hmapcons] at hnd
    obtain ⟨hnotin, hndt⟩ := List.nodup_cons.mp hnd
    rcases List.mem_cons.mp hc with rfl | hct
    · exact List.find?_cons_of_pos t (by simp)
    · have hne : ¬ (decide (h.id = c.id)) = true := by
        simp only [decide_eq_true_eq]
        intro hh
        exact hnotin (hh ▸ List.mem_map_of_mem _ hct)
      rw [List.find?_cons_of_neg t hne]
      exact ih c hndt hct

/- Looking up a freshly appended row by its id finds it when no earlier
row shares the id. -/
theorem find_id_append :
    ∀ (l : List ContainerRow) (row : ContainerRow),
      (∀ r ∈ l, r.id ≠ row.id) →
      (l ++ [row]).find? (fun r => decide (r.id = row.id)) = some row := by
  intro l
  induction l with
  | nil =>
    intro row _
    exact List.find?_cons_of_pos _ (by simp)
  | cons h t ih =>
    intro row hne
    have hh : ¬ (decide (h.id = row.id)) = true := by
      simp only [decide_eq_true_eq]
      exact hne h (by simp)
    rw [List.cons_append, List.find?_cons_of_neg (t ++ [row]) hh]
    exact ih row (fun r hr => hne r (by simp [hr]))

/- The UPDATE of allocateContainer turns the row found by id into the
unique row owned by the key: both the owner lookup and the id lookup on
the updated table find exactly the updated row. -/
theorem find_after_update (k : String) (nw : Nat) :
    ∀ (l : List ContainerRow) (cid : Nat) (c0 : ContainerRow),
      (∀ r ∈ l, r.projectId ≠ some k) →
      l.find? (fun r => decide (r.id = cid)) = some c0 →
      ((l.map (fun c =>
          if c.id = cid then { c with projectId := some k, lastActivity := nw } else c)).find?
          (fun r => decide (r.projectId = some k)) =
        some { c0 with projectId := some k, lastActivity := nw } ∧
       (l.map (fun c =>
          if c.id = cid then { c with projectId := some k, lastActivity := nw } else c)).find?
          (fun r => decide (r.id = cid)) =
        some { c0 with projectId := some k, lastActivity := nw }) := by
  intro l
  induction l with
  | nil =>
    intro cid c0 _ hfind
    exact absurd hfind (by simp)
  | cons h t ih =>
    intro cid c0 hno hfind
    by_cases hid : h.id = cid
    · have h1 : (decide (h.id = cid)) = true := by simp [hid]
      rw [List.find?_cons_of_pos t h1] at hfind
      have hc0 : h = c0 := by injection hfind
      subst hc0
      have hupd : (if h.id = cid then { h with projectId := some k, lastActivity := nw } else h) =
          { h with projectId := some k, lastActivity := nw } := if_pos hid
      constructor
      · rw [List.map_cons, hupd]
        exact List.find?_cons_of_pos _ (by simp)
      · rw [List.map_cons, hupd]
        exact List.find?_cons_of_pos _ (by simp [hid])
    · have h1 : ¬ (decide (h.id = cid)) = true := by simp [hid]
      rw [List.find?_cons_of_neg t h1] at hfind
      obtain ⟨ih1, ih2⟩ := ih cid c0 (fun r hr => hno r (by simp [hr])) hfind
      have hupd : (if h.id = cid then { h with projectId := some k, lastActivity := nw } else h) =
          h := if_neg hid
      constructor
      · rw [List.map_cons, hupd,
          List.find?_cons_of_neg (List.map (fun c =>
            if c.id = cid then { c with projectId := some k, lastActivity := nw } else c) t)
            (show ¬ (decide (h.projectId = some k)) = true by
              simp only [decide_eq_true_eq]
              exact hno h (List.mem_cons_self h t))]
        exact ih1
      · rw [List.map_cons, hupd,
          List.find?_cons_of_neg (List.map (fun c =>
            if c.id = cid then { c with projectId := some k, lastActivity := nw } else c) t) h1]
        exact ih2

/- createContainer never changes the owned (non-idle) rows. -/
theorem owned_createContainer (b : Backend) (s : State) :
    (createContainer b s).2.containers.filter (fun c => !isIdle c) =
      s.containers.filter (fun c => !isIdle c) := by
  rcases createContainer_spec b s with ⟨_, heq⟩ | ⟨_, _, heq⟩ | ⟨_, _, heq⟩
  · rw [heq]
  · rw [heq]
  · rw [heq]
    show (createdState s).containers.filter (fun c => !isIdle c) =
      s.containers.filter (fun c => !isIdle c)
    simp only [createdState]
    rw [List.filter_append]
    simp [newRow, isIdle]

/- The creation loop never changes the owned rows. -/
theorem owned_createLoop (b : Backend) :
    ∀ (k : Nat) (s : State),
      (createLoop b k s).containers.filter (fun c => !isIdle c) =
        s.containers.filter (fun c => !isIdle c) := by
  intro k
  induction k with
  | zero => intro s; rfl
  | succ k ih =>
    intro s
    rw [show createLoop b (k + 1) s = createLoop b k (createContainer b s).2 from rfl,
      ih (createContainer b s).2]
    exact owned_createContainer b s

/- The shutdown loop never changes the owned rows, as long as none of
the ids it deletes belongs to an owned row (it may stop early on a kill
rejection). -/
theorem owned_killLoop (b : Backend) :
    ∀ (todo : List ContainerRow) (excess : Int) (s : State),
      (∀ c ∈ todo, ∀ r ∈ s.containers, isIdle r = false → r.id ≠ c.id) →
      (killLoop b excess todo s).2.containers.filter (fun c => !isIdle c) =
        s.containers.filter (fun c => !isIdle c) := by
  intro todo
  induction todo with
  | nil => intro excess s _; rfl
  | cons c rest ih =>
    intro excess s hsafe
    by_cases hk : b.kill c.id
    · have hstep : killLoop b excess (c :: rest) s =
          killLoop b excess rest (logEvent (shutdownEvent c s.now)
            { s with containers := s.containers.filter (fun r => decide (r.id ≠ c.id)) }) := by
        simp [killLoop, hk]
      have hf : (s.containers.filter (fun r => decide (r.id ≠ c.id))).filter
            (fun r => !isIdle r) = s.containers.filter (fun r => !isIdle r) := by
        rw [List.filter_filter]
        apply List.filter_congr
        intro a ha
        cases hia : isIdle a
        · have hd : decide (a.id ≠ c.id) = true := by
            simp only [decide_eq_true_eq]
            exact hsafe c (List.mem_cons_self c rest) a ha hia
          simp [hd, hia]
        · simp [hia]
      have hsafe' : ∀ d ∈ rest, ∀ r ∈ (logEvent (shutdownEvent c s.now)
          { s with containers := s.containers.filter (fun r => decide (r.id ≠ c.id)) }).containers,
          isIdle r = false → r.id ≠ d.id := by
        intro d hd r hr hro
        have h' := hr
        simp [logEvent] at h'
        exact hsafe d (List.mem_cons_of_mem c hd) r h'.1 hro
      rw [hstep, ih excess _ hsafe']
      simpa [logEvent] using hf
    · have hstep : killLoop b excess (c :: rest) s = (.error .backendError, s) := by
        simp [killLoop, hk]
      rw [hstep]

/- The whole maintenance pass never changes the owned rows (any backend),
as long as ids are unique. -/
theorem owned_maintain (b : Backend) (s : State)
    (hnd : (s.containers.map (·.id)).Nodup) :
    (maintainPool b s).2.containers.filter (fun c => !isIdle c) =
      s.containers.filter (fun c => !isIdle c) := by
  by_cases h1 : (idleCount s : Int) < s.bufferSize
  · have hm : (maintainPool b s).2 = createLoop b (s.bufferSize - (idleCount s : Int)).toNat s := by
      simp [maintainPool, h1]
    rw [hm]
    exact owned_createLoop b _ s
  · by_cases h2 : s.bufferSize < (idleCount s : Int)
    · have hm : maintainPool b s = shutdownExcessContainers b s := by
        simp [maintainPool, h1, h2]
      rw [hm, shutdownExcess_eq]
      split
      · apply owned_killLoop
        intro c hc r hr hro
        have hperm := sortByCreated_perm (s.containers.filter isIdle)
        obtain ⟨hcm, hcidle⟩ := List.mem_filter.mp (hperm.mem_iff.mp (List.mem_of_mem_take hc))
        intro hidq
        have hrc : r = c := List.inj_on_of_nodup_map hnd hr hcm hidq
        rw [hrc, hcidle] at hro
        simp at hro
      · rfl
    · have hm : maintainPool b s = (.ok (), s) := by
        simp [maintainPool, h1, h2]
      rw [hm]

/- Characterisation of the commit phase of allocateContainer on a table
with no existing owner for the key: the row found by id becomes the
unique owner-k row, the call returns the updated row, and the owner
lookup on the final state (after the triggered maintenance pass) still
finds exactly that row. -/
theorem allocFinish_spec (b : Backend) (k : String) (s : State) (cid : Nat)
    (c0 : ContainerRow)
    (hno : ∀ r ∈ s.containers, r.projectId ≠ some k)
    (hnd : (s.containers.map (·.id)).Nodup)
    (hfind : s.containers.find? (fun r => decide (r.id = cid)) = some c0) :
    ∃ s1, allocFinish b k cid s =
        (.ok (some { c0 with projectId := some k, lastActivity := s.now }), s1) ∧
      s1.containers.find? (fun r => decide (r.projectId = some k)) =
        some { c0 with projectId := some k, lastActivity := s.now } := by
  obtain ⟨howner, hid⟩ := find_after_update k s.now s.containers cid c0 hno hfind
  refine ⟨(maintainPool b (logEvent (allocatedEvent cid k s.now)
      { s with containers := s.containers.map (fun c =>
          if c.id = cid then { c with projectId := some k, lastActivity := s.now } else c) })).2,
    ?_, ?_⟩
  · simp only [allocFinish, hid]
  · have himp : ∀ r : ContainerRow,
        (decide (r.projectId = some k)) = true → (!isIdle r) = true := by
      intro r hr
      simp only [decide_eq_true_eq] at hr
      simp [isIdle, hr]
    have hnd2 : ((logEvent (allocatedEvent cid k s.now)
        { s with containers := s.containers.map (fun c =>
            if c.id = cid then { c with projectId := some k, lastActivity := s.now } else c)
        }).containers.map (·.id)).Nodup := by
      show ((s.containers.map (fun c =>
        if c.id = cid then { c with projectId := some k, lastActivity := s.now } else c)).map
          (·.id)).Nodup
      rw [upd_ids]
      exact hnd
    calc (maintainPool b (logEvent (allocatedEvent cid k s.now)
          { s with containers := s.containers.map (fun c =>
              if c.id = cid then { c with projectId := some k, lastActivity := s.now } else c)
          })).2.containers.find? (fun r => decide (r.projectId = some k))
        = ((maintainPool b (logEvent (allocatedEvent cid k s.now)
            { s with containers := s.containers.map (fun c =>
                if c.id = cid then { c with projectId := some k, lastActivity := s.now } else c)
            })).2.containers.filter (fun c => !isIdle c)).find?
            (fun r => decide (r.projectId = some k)) :=
          find?_filter_of_imp _ _ _ himp
      _ = (((logEvent (allocatedEvent cid k s.now)
            { s with containers := s.containers.map (fun c =>
                if c.id = cid then { c with projectId := some k, lastActivity := s.now } else c)
            }).containers).filter (fun c => !isIdle c)).find?
            (fun r => decide (r.projectId = some k)) := by
          rw [owned_maintain b _ hnd2]
      _ = ((logEvent (allocatedEvent cid k s.now)
            { s with containers := s.containers.map (fun c =>
                if c.id = cid then { c with projectId := some k, lastActivity := s.now } else c)
            }).containers).find? (fun r => decide (r.projectId = some k)) :=
          (find?_filter_of_imp _ _ _ himp).symm
      _ = some { c0 with projectId := some k, lastActivity := s.now } := howner

/-- Claim C1: allocation is idempotent by owner. When a container already
owned by the key exists (as found by the SELECT ... LIMIT 1), the call
returns it and leaves containers, events and pool_config all untouched;
and on a well-formed state, a second allocateContainer call right after
a successful one returns the very same container and leaves the state
unchanged, so two successive calls with the same key yield the same
container id and no second container is bound. -/
theorem allocate_idempotent (b b2 : Backend) (k : String) (s : State) (hWF : WF s) :
    (∀ c, s.containers.find? (fun r => decide (r.projectId = some k)) = some c →
      allocateContainer b k s = (.ok (some c), s)) ∧
    (∀ c s1, allocateContainer b k s = (.ok (some c), s1) →
      allocateContainer b2 k s1 = (.ok (some c), s1)) := by
  obtain ⟨hnd, hfresh⟩ := hWF
  constructor
  · intro c hc
    simp [allocateContainer, hc]
  · intro c s1 halloc
    cases hof : s.containers.find? (fun r => decide (r.projectId = some k)) with
    | some c' =>
      rw [show allocateContainer b k s = (.ok (some c'), s) by
        simp [allocateContainer, hof]] at halloc
      simp only [Prod.mk.injEq, Except.ok.injEq, Option.some.injEq] at halloc
      obtain ⟨rfl, rfl⟩ := halloc
      simp [allocateContainer, hof]
    | none =>
      have hno : ∀ r ∈ s.containers, r.projectId ≠ some k := by
        intro r hr
        have h' := List.find?_eq_none.mp hof r hr
        simpa using h'
      cases hif : s.containers.find? (fun r => isIdle r) with
      | some c0 =>
        have hc0m : c0 ∈ s.containers := List.mem_of_find?_eq_some hif
        have hfind : s.containers.find? (fun r => decide (r.id = c0.id)) = some c0 :=
          find_id_of_nodup s.containers c0 hnd hc0m
        obtain ⟨s1', heq1, hfo⟩ := allocFinish_spec b k s c0.id c0 hno hnd hfind
        rw [show allocateContainer b k s = allocFinish b k c0.id s by
          simp [allocateContainer, hof, hif], heq1] at halloc
        simp only [Prod.mk.injEq, Except.ok.injEq, Option.some.injEq] at halloc
        obtain ⟨rfl, rfl⟩ := halloc
        simp [allocateContainer, hfo]
      | none =>
        rcases createContainer_spec b s with ⟨_, heq⟩ | ⟨_, _, heq⟩ | ⟨_, _, heq⟩
        · rw [show allocateContainer b k s = (.ok none, s) by
            simp [allocateContainer, hof, hif, heq]] at halloc
          simp at halloc
        · rw [show allocateContainer b k s = (.ok none, { s with nextId := s.nextId + 1 }) by
            simp [allocateContainer, hof, hif, heq]] at halloc
          simp at halloc
        · have hwf1 := WF_createContainer b s ⟨hnd, hfresh⟩
          rw [heq] at hwf1
          have hnoC : ∀ r ∈ (createdState s).containers, r.projectId ≠ some k := by
            intro r hr
            rcases List.mem_append.mp hr with h | h
            · exact hno r h
            · simp only [List.mem_cons, List.not_mem_nil, or_false] at h
              subst h
              simp [newRow]
          have hfindC : (createdState s).containers.find?
              (fun r => decide (r.id = (newRow s).id)) = some (newRow s) := by
            show (s.containers ++ [newRow s]).find?
              (fun r => decide (r.id = (newRow s).id)) = some (newRow s)
            apply find_id_append
            intro r hr
            have hlt := hfresh r hr
            show r.id ≠ s.nextId
            omega
          obtain ⟨s1', heq2, hfo⟩ :=
            allocFinish_spec b k (createdState s) (newRow s).id (newRow s) hnoC hwf1.1 hfindC
          rw [show allocateContainer b k s = allocFinish b k (newRow s).id (createdState s) by
            simp [allocateContainer, hof, hif, heq], heq2] at halloc
          simp only [Prod.mk.injEq, Except.ok.injEq, Option.some.injEq] at halloc
          obtain ⟨rfl, rfl⟩ := halloc
          simp [allocateContainer, hfo]

/-- Witness for allocate_idempotent: on a state whose only container is
owned by "p", allocating "p" returns that container and changes nothing,
and a repeated allocation after any successful one is stable. -/
theorem allocate_idempotent_witness :
    allocateContainer bAll "p" sOwned = (.ok (some row7), sOwned) ∧
    allocateContainer bNoStart "p" sOwned = (.ok (some row7), sOwned) :=
  ⟨(allocate_idempotent bAll bAll "p" sOwned ⟨by decide, by decide⟩).1 row7 (by decide),
   (allocate_idempotent bAll bNoStart "p" sOwned ⟨by decide, by decide⟩).2 row7 sOwned
     ((allocate_idempotent bAll bAll "p" sOwned ⟨by decide, by decide⟩).1 row7 (by decide))⟩

/- Projections of the min_size overwrite: every other column is as before. -/
theorem setMin_containers (m : Int) (s : State) : (setMin m s).containers = s.containers := rfl

theorem setMin_events (m : Int) (s : State) : (setMin m s).events = s.events := rfl

theorem setMin_maxSize (m : Int) (s : State) : (setMin m s).maxSize = s.maxSize := rfl

theorem setMin_bufferSize (m : Int) (s : State) : (setMin m s).bufferSize = s.bufferSize := rfl

theorem setMin_currentSize (m : Int) (s : State) : (setMin m s).currentSize = s.currentSize := rfl

theorem setMin_nextId (m : Int) (s : State) : (setMin m s).nextId = s.nextId := rfl

theorem setMin_now (m : Int) (s : State) : (setMin m s).now = s.now := rfl

theorem setMin_idleCount (m : Int) (s : State) : idleCount (setMin m s) = idleCount s := rfl

theorem setMin_minSize (m : Int) (s : State) : (setMin m s).minSize = m := rfl

/- createContainer never reads or writes min_size. -/
theorem createContainer_setMin (b : Backend) (m : Int) (s : State) :
    createContainer b (setMin m s) =
      ((createContainer b s).1, setMin m (createContainer b s).2) := by
  obtain ⟨co, ev, mi, ma, bu, cu, ni, no⟩ := s
  by_cases h1 : cu ≥ ma
  · simp [createContainer, setMin, h1]
  · by_cases h2 : b.start ni
    · simp [createContainer, setMin, h1, h2, logEvent, createdEvent]
    · simp [createContainer, setMin, h1, h2]

/- The creation loop never reads or writes min_size. -/
theorem createLoop_setMin (b : Backend) (m : Int) :
    ∀ (k : Nat) (s : State), createLoop b k (setMin m s) = setMin m (createLoop b k s) := by
  intro k
  induction k with
  | zero => intro s; rfl
  | succ k ih =>
    intro s
    show createLoop b k (createContainer b (setMin m s)).2 =
      setMin m (createLoop b k (createContainer b s).2)
    rw [createContainer_setMin]
    exact ih (createContainer b s).2

/- The shutdown loop never reads or writes min_size. -/
theorem killLoop_setMin (b : Backend) (m : Int) :
    ∀ (todo : List ContainerRow) (excess : Int) (s : State),
      killLoop b excess todo (setMin m s) =
        ((killLoop b excess todo s).1, setMin m (killLoop b excess todo s).2) := by
  intro todo
  induction todo with
  | nil => intro excess s; rfl
  | cons c rest ih =>
    intro excess s
    by_cases hk : b.kill c.id
    · have hL : killLoop b excess (c :: rest) (setMin m s) =
          killLoop b excess rest (setMin m (logEvent (shutdownEvent c s.now)
            { s with containers := s.containers.filter (fun r => decide (r.id ≠ c.id)) })) := by
        simp only [killLoop, hk, if_true]
        rfl
      have hR : killLoop b excess (c :: rest) s =
          killLoop b excess rest (logEvent (shutdownEvent c s.now)
            { s with containers := s.containers.filter (fun r => decide (r.id ≠ c.id)) }) := by
        simp only [killLoop, hk, if_true]
      rw [hL, hR]
      exact ih excess _
    · have hk' : b.kill c.id = false := by simpa using hk
      have hL : killLoop b excess (c :: rest) (setMin m s) = (.error .backendError, setMin m s) := by
        simp only [killLoop, hk', Bool.false_eq_true, if_false]
      have hR : killLoop b excess (c :: rest) s = (.error .backendError, s) := by
        simp only [killLoop, hk', Bool.false_eq_true, if_false]
      rw [hL, hR]

/- shutdownExcessContainers never reads or writes min_size. -/
theorem shutdownExcess_setMin (b : Backend) (m : Int) (s : State) :
    shutdownExcessContainers b (setMin m s) =
      ((shutdownExcessContainers b s).1, setMin m (shutdownExcessContainers b s).2) := by
  rw [shutdownExcess_eq b (setMin m s), shutdownExcess_eq b s]
  simp only [setMin_containers, setMin_bufferSize]
  by_cases h : s.bufferSize < ((sortByCreated (s.containers.filter isIdle)).length : Int)
  · rw [if_pos h, if_pos h, killLoop_setMin]
  · rw [if_neg h, if_neg h]

/- The maintenance pass never reads or writes min_size. -/
theorem maintainPool_setMin (b : Backend) (m : Int) (s : State) :
    maintainPool b (setMin m s) =
      ((maintainPool b s).1, setMin m (maintainPool b s).2) := by
  by_cases h1 : (idleCount s : Int) < s.bufferSize
  · have hL : maintainPool b (setMin m s) =
        (.ok (), createLoop b (s.bufferSize - (idleCount s : Int)).toNat (setMin m s)) := by
      simp [maintainPool, setMin_idleCount, setMin_bufferSize, h1]
    have hR : maintainPool b s =
        (.ok (), createLoop b (s.bufferSize - (idleCount s : Int)).toNat s) := by
      simp [maintainPool, h1]
    rw [hL, hR, createLoop_setMin]
  · by_cases h2 : s.bufferSize < (idleCount s : Int)
    · have hL : maintainPool b (setMin m s) = shutdownExcessContainers b (setMin m s) := by
        simp [maintainPool, setMin_idleCount, setMin_bufferSize, h1, h2]
      have hR : maintainPool b s = shutdownExcessContainers b s := by
        simp [maintainPool, h1, h2]
      rw [hL, hR, shutdownExcess_setMin]
    · have hL : maintainPool b (setMin m s) = (.ok (), setMin m s) := by
        simp [maintainPool, setMin_idleCount, setMin_bufferSize, h1, h2]
      have hR : maintainPool b s = (.ok (), s) := by
        simp [maintainPool, h1, h2]
      rw [hL, hR]

/- Pool initialization never reads or writes min_size. -/
theorem initializePool_setMin (b : Backend) (m : Int) (s : State) :
    initializePool b (setMin m s) = setMin m (initializePool b s) := by
  by_cases h1 : (idleCount s : Int) < s.bufferSize
  · have hL : initializePool b (setMin m s) =
        createLoop b (s.bufferSize - (idleCount s : Int)).toNat (setMin m s) := by
      simp [initializePool, setMin_idleCount, setMin_bufferSize, h1]
    have hR : initializePool b s = createLoop b (s.bufferSize - (idleCount s : Int)).toNat s := by
      simp [initializePool, h1]
    rw [hL, hR, createLoop_setMin]
  · have hL : initializePool b (setMin m s) = setMin m s := by
      simp [initializePool, setMin_idleCount, setMin_bufferSize, h1]
    have hR : initializePool b s = s := by
      simp [initializePool, h1]
    rw [hL, hR]

/- The allocation commit phase never reads or writes min_size. -/
theorem allocFinish_setMin (b : Backend) (m : Int) (k : String) (cid : Nat) (s : State) :
    allocFinish b k cid (setMin m s) =
      ((allocFinish b k cid s).1, setMin m (allocFinish b k cid s).2) := by
  simp only [allocFinish, setMin_containers, setMin_now]
  cases hf : (s.containers.map (fun c =>
      if c.id = cid then { c with projectId := some k, lastActivity := s.now } else c)).find?
      (fun c => decide (c.id = cid)) with
  | none => rfl
  | some newC =>
    have hm := maintainPool_setMin b m (logEvent (allocatedEvent cid k s.now)
      { s with containers := s.containers.map (fun c =>
          if c.id = cid then { c with projectId := some k, lastActivity := s.now } else c) })
    show (Except.ok (some newC), (maintainPool b (setMin m (logEvent (allocatedEvent cid k s.now)
        { s with containers := s.containers.map (fun c =>
            if c.id = cid then { c with projectId := some k, lastActivity := s.now } else c)
        }))).2) = _
    rw [hm]

/- allocateContainer never reads or writes min_size. -/
theorem allocateContainer_setMin (b : Backend) (m : Int) (k : String) (s : State) :
    allocateContainer b k (setMin m s) =
      ((allocateContainer b k s).1, setMin m (allocateContainer b k s).2) := by
  cases hof : s.containers.find? (fun c => decide (c.projectId = some k)) with
  | some c =>
    have hL : allocateContainer b k (setMin m s) = (.ok (some c), setMin m s) := by
      simp [allocateContainer, setMin_containers, hof]
    have hR : allocateContainer b k s = (.ok (some c), s) := by
      simp [allocateContainer, hof]
    rw [hL, hR]
  | none =>
    cases hif : s.containers.find? (fun c => isIdle c) with
    | some c =>
      have hL : allocateContainer b k (setMin m s) = allocFinish b k c.id (setMin m s) := by
        simp [allocateContainer, setMin_containers, hof, hif]
      have hR : allocateContainer b k s = allocFinish b k c.id s := by
        simp [allocateContainer, hof, hif]
      rw [hL, hR, allocFinish_setMin]
    | none =>
      cases hc : createContainer b s with
      | mk r s1 =>
        have hcs : createContainer b (setMin m s) = (r, setMin m s1) := by
          rw [createContainer_setMin, hc]
        cases r with
        | ok c =>
          have hL : allocateContainer b k (setMin m s) = allocFinish b k c.id (setMin m s1) := by
            simp [allocateContainer, setMin_containers, hof, hif, hcs]
          have hR : allocateContainer b k s = allocFinish b k c.id s1 := by
            simp [allocateContainer, hof, hif, hc]
          rw [hL, hR, allocFinish_setMin]
        | error e =>
          have hL : allocateContainer b k (setMin m s) = (.ok none, setMin m s1) := by
            simp [allocateContainer, setMin_containers, hof, hif, hcs]
          have hR : allocateContainer b k s = (.ok none, s1) := by
            simp [allocateContainer, hof, hif, hc]
          rw [hL, hR]

/- The reset kill loop never reads or writes min_size. -/
theorem killAll_setMin (b : Backend) (m : Int) :
    ∀ (l : List ContainerRow) (s : State),
      killAll b l (setMin m s) = ((killAll b l s).1, setMin m (killAll b l s).2) := by
  intro l
  induction l with
  | nil => intro s; rfl
  | cons c rest ih =>
    intro s
    by_cases hk : b.kill c.id
    · simp [killAll, hk, ih]
    · simp [killAll, hk]

/- resetContainers never reads or writes min_size. -/
theorem resetContainers_setMin (b : Backend) (m : Int) (s : State) :
    resetContainers b (setMin m s) =
      ((resetContainers b s).1, setMin m (resetContainers b s).2) := by
  cases hk : killAll b s.containers s with
  | mk r s1 =>
    have hksm : killAll b s.containers (setMin m s) = (r, setMin m s1) := by
      rw [killAll_setMin, hk]
    cases r with
    | error e =>
      have hL : resetContainers b (setMin m s) = (.error e, setMin m s1) := by
        simp [resetContainers, setMin_containers, hksm]
      have hR : resetContainers b s = (.error e, s1) := by
        simp [resetContainers, hk]
      rw [hL, hR]
    | ok u =>
      have hL : resetContainers b (setMin m s) =
          (.ok (), initializePool b (setMin m (logEvent (resetEvent s.now)
            { s1 with containers := [], currentSize := 0 }))) := by
        simp [resetContainers, setMin_containers, hksm, setMin_now]
        rfl
      have hR : resetContainers b s =
          (.ok (), initializePool b (logEvent (resetEvent s.now)
            { s1 with containers := [], currentSize := 0 })) := by
        simp [resetContainers, hk]
      rw [hL, hR, initializePool_setMin]

/- applyPatch commutes with the min_size overwrite when the patch does
not itself set min_size. -/
theorem applyPatch_setMin (cfg : ConfigPatch) (m : Int) (s : State)
    (hm : cfg.minSize = none) :
    applyPatch cfg (setMin m s) = setMin m (applyPatch cfg s) := by
  obtain ⟨cmin, cmax, cbuf⟩ := cfg
  simp only at hm
  subst hm
  cases cmax <;> cases cbuf <;> rfl

/- updatePoolConfig never reads min_size and, when the patch does not
provide one, never writes it either. -/
theorem updatePoolConfig_setMin (b : Backend) (cfg : ConfigPatch) (m : Int) (s : State)
    (hm : cfg.minSize = none) :
    updatePoolConfig b cfg (setMin m s) =
      ((updatePoolConfig b cfg s).1, setMin m (updatePoolConfig b cfg s).2) := by
  show maintainPool b (logEvent (configEvent cfg (setMin m s).now) (applyPatch cfg (setMin m s))) = _
  rw [setMin_now, applyPatch_setMin cfg m s hm]
  have hle : logEvent (configEvent cfg s.now) (setMin m (applyPatch cfg s)) =
      setMin m (logEvent (configEvent cfg s.now) (applyPatch cfg s)) := rfl
  rw [hle, maintainPool_setMin]
  rfl

/- A public operation that does not write min_size commutes with the
min_size overwrite. -/
theorem applyOp_setMin (b : Backend) (m : Int) (op : Op) (s : State) (hop : minFree op) :
    applyOp b op (setMin m s) = setMin m (applyOp b op s) := by
  cases op with
  | alloc k =>
    show (allocateContainer b k (setMin m s)).2 = setMin m (allocateContainer b k s).2
    rw [allocateContainer_setMin]
  | reset =>
    show (resetContainers b (setMin m s)).2 = setMin m (resetContainers b s).2
    rw [resetContainers_setMin]
  | config cfg =>
    show (updatePoolConfig b cfg (setMin m s)).2 = setMin m (updatePoolConfig b cfg s).2
    rw [updatePoolConfig_setMin b cfg m s hop]
  | maintain =>
    show (maintainPool b (setMin m s)).2 = setMin m (maintainPool b s).2
    rw [maintainPool_setMin]

/- A whole run of min_size-free public operations commutes with the
min_size overwrite. -/
theorem runOps_setMin (b : Backend) (m : Int) :
    ∀ (ops : List Op) (s : State), (∀ op ∈ ops, minFree op) →
      runOps b ops (setMin m s) = setMin m (runOps b ops s) := by
  intro ops
  induction ops with
  | nil => intro s _; rfl
  | cons op rest ih =>
    intro s hops
    show runOps b rest (applyOp b op (setMin m s)) = setMin m (runOps b rest (applyOp b op s))
    rw [applyOp_setMin b m op s (hops op (List.mem_cons_self op rest))]
    exact ih _ (fun o ho => hops o (List.mem_cons_of_mem op ho))

/-- Claim C10: the min_size configuration value never influences pool
behaviour: two runs of the same sequence of allocate, reset, configure
(not touching minSize) and maintenance operations that differ only in
the stored min_size produce identical containers tables, event logs and
current_size values — min_size is written by configure and reported by
status() but read by no pool-mutating operation. -/
theorem minSize_no_influence (b : Backend) (ops : List Op) (s : State) (m : Int)
    (hops : ∀ op ∈ ops, minFree op) :
    (runOps b ops (setMin m s)).containers = (runOps b ops s).containers ∧
    (runOps b ops (setMin m s)).events = (runOps b ops s).events ∧
    (runOps b ops (setMin m s)).currentSize = (runOps b ops s).currentSize ∧
    (getStatus (runOps b ops (setMin m s))).minSize = m := by
  rw [runOps_setMin b m ops s hops]
  exact ⟨rfl, rfl, rfl, rfl⟩

/-- Witness for minSize_no_influence: an allocation followed by a
maintenance pass on the default state, with min_size overwritten to 99,
yields the same containers, events and current_size. -/
theorem minSize_no_influence_witness :
    (runOps bAll [Op.alloc "p", Op.maintain] (setMin 99 s0)).containers =
      (runOps bAll [Op.alloc "p", Op.maintain] s0).containers ∧
    (runOps bAll [Op.alloc "p", Op.maintain] (setMin 99 s0)).events =
      (runOps bAll [Op.alloc "p", Op.maintain] s0).events ∧
    (runOps bAll [Op.alloc "p", Op.maintain] (setMin 99 s0)).currentSize =
      (runOps bAll [Op.alloc "p", Op.maintain] s0).currentSize ∧
    (getStatus (runOps bAll [Op.alloc "p", Op.maintain] (setMin 99 s0))).minSize = 99 :=
  minSize_no_influence bAll [Op.alloc "p", Op.maintain] s0 99 (by
    intro op hop
    cases op <;> trivial)
